import Mathlib

/-!
# CopyQ: clipboard browser and command handler

A shallow embedding of `src/clipboardbrowser.cpp` and of
`MainWindow::handleMessage` (`src/mainwindow.cpp`).

* The rows of the `ClipboardModel` are a `List QVariant`, index 0 first.
* The system clipboard (`QClipboard`) is a record with one content per channel
  and a log of the writes made to it; a written value is the value read back.
* Every C++ method that mutates the browser is a function on
  `ClipboardBrowser`; a method that also returns a value returns a pair.
* Qt library functions (`QString::toInt`, `QString::arg`, `QChar::isSpace`,
  the selection model) are modelled after their documented behaviour.
* `clipboardbrowser.h` and `clipboardmodel.cpp` are not among the sources. The
  default arguments declared in the header are read off the calls:
  `add(txt, ignore_empty = true)` (the callers that want an empty item pass
  `false`), `sync(list_to_clipboard = true, mode = Clipboard)` (the calls after a
  local change are `sync()`), `clipboardChanged(mode = Clipboard)`,
  `itemText(i = -1)` and `setCurrent(row, cycle = false, selection = false)`.
-/

namespace CopyQ

/-! ## Qt value types -/

/-- An image payload (`QImage`), identified by its pixel data. -/
structure QImage where
  pixels : List Nat
deriving DecidableEq, Repr

/-- The payload of one row: a `QVariant` that holds a `QString` or a `QImage`. -/
inductive QVariant where
  | str (s : String)
  | image (img : QImage)
deriving DecidableEq, Repr

/-- `QVariant::toString()`: the string held, and the empty string for an image. -/
def QVariant.toString : QVariant → String
  | QVariant.str s => s
  | QVariant.image _ => ""

/-- `QChar::isSpace()`: code points 9 to 13 and the Unicode separator
categories (Zs, Zl, Zp). This is what `\s` matches in a `QRegExp`. -/
def isSpace (c : Char) : Bool :=
  let u := c.toNat
  (9 ≤ u && u ≤ 13) || u == 0x20 || u == 0xA0 || u == 0x1680 || u == 0x180E
    || (0x2000 ≤ u && u ≤ 0x200A) || u == 0x2028 || u == 0x2029
    || u == 0x202F || u == 0x205F || u == 0x3000

/-- The test `txt.indexOf( QRegExp("^\\s*$") ) != -1` of `add`: the caret only
matches at index 0 and the dollar only at the end, so the pattern is found
exactly when every character of `txt` is a space character. -/
def isBlank (txt : String) : Bool :=
  txt.data.all isSpace

/-! ## The system clipboard -/

/-- The two channels of the clipboard (`QClipboard::Mode`). -/
inductive Mode where
  | Clipboard
  | Selection
deriving DecidableEq, Repr

/-- The content of one clipboard channel (`QMimeData`): no format at all, a
text, an image, or data that is neither text nor image. -/
inductive QMimeData where
  | noFormats
  | text (s : String)
  | image (img : QImage)
  | other
deriving DecidableEq, Repr

/-- The clipboard resource: the content of each channel, and the log of the
writes (`setText`, `setImage`) made so far, oldest first. -/
structure QClipboard where
  clipboard : QMimeData
  selection : QMimeData
  writes : List (Mode × QMimeData)
deriving DecidableEq, Repr

/-- `QClipboard::mimeData(mode)`. -/
def QClipboard.mimeData (c : QClipboard) : Mode → QMimeData
  | Mode.Clipboard => c.clipboard
  | Mode.Selection => c.selection

/-- `QClipboard::text(mode)`: the text of the channel, empty when the channel
holds no text. -/
def QClipboard.text (c : QClipboard) (mode : Mode) : String :=
  match c.mimeData mode with
  | QMimeData.text s => s
  | _ => ""

/-- A write of `d` to the channel `mode`, recorded in the log. -/
def QClipboard.write (c : QClipboard) (d : QMimeData) : Mode → QClipboard
  | Mode.Clipboard => { c with clipboard := d, writes := c.writes ++ [(Mode.Clipboard, d)] }
  | Mode.Selection => { c with selection := d, writes := c.writes ++ [(Mode.Selection, d)] }

/-- `QClipboard::setText(text, mode)`. -/
def QClipboard.setText (c : QClipboard) (text : String) (mode : Mode) : QClipboard :=
  c.write (QMimeData.text text) mode

/-- `QClipboard::setImage(image, mode)`. -/
def QClipboard.setImage (c : QClipboard) (img : QImage) (mode : Mode) : QClipboard :=
  c.write (QMimeData.image img) mode

/-! ## The browser state -/

/-- The state of a `ClipboardBrowser`: the rows of its model `m`, the search
pattern of the model, the configured capacity, the last text synchronised, the
clipboard, the two timers, the focus flag and the state of the list view
(current row, selected rows, hidden rows). -/
structure ClipboardBrowser where
  /-- rows of the `ClipboardModel`, index 0 first -/
  m : List QVariant
  /-- search pattern of the model, as the predicate "the text matches" -/
  m_re : Option (String → Bool)
  m_maxitems : Int
  m_lastSelection : String
  clip : QClipboard
  /-- the polling timer `timer` is active -/
  timer : Bool
  /-- the save timer `timer_save` is active -/
  timer_save : Bool
  hasFocus : Bool
  /-- row of `currentIndex()`, `-1` when it is invalid -/
  current : Int
  /-- rows of `selectedIndexes()` -/
  selected : List Nat
  /-- rows made hidden with `setRowHidden` -/
  hidden : List Nat

/-- Modelled from the spec: `ClipboardModel::rowCount()`, absent from the
sources; the number of items of the store. -/
def rowCount (b : ClipboardBrowser) : Nat :=
  b.m.length

/-- Modelled from the spec: `ClipboardBrowser::length()`, declared in the
absent header; "the current item count". -/
def length (b : ClipboardBrowser) : Int :=
  (rowCount b : Int)

/-- Modelled from the spec: `ClipboardBrowser::itemData(i)`, declared in the
absent header; the payload of the item at `i`, absent when `i` is out of
bounds. -/
def itemData (b : ClipboardBrowser) (i : Nat) : Option QVariant :=
  b.m.get? i

/-- `ClipboardBrowser::itemText(QModelIndex)` at the index of row `r`; an
index outside the model is invalid and gives the empty string. -/
def itemTextAt (b : ClipboardBrowser) (r : Int) : String :=
  if 0 ≤ r then
    match b.m.get? r.toNat with
    | some v => v.toString
    | none => ""
  else ""

/-- `ClipboardBrowser::itemText(int i)`: empty when `i >= rowCount`, the text
of the current index when `i == -1`, else the text at `index(i)`. -/
def itemText (b : ClipboardBrowser) (i : Int) : String :=
  if i ≥ (rowCount b : Int) then ""
  else itemTextAt b (if i = -1 then b.current else i)

/-! ## The model and the view

`clipboardmodel.cpp` is not part of the sources at hand. Its operations are
the ones of a Qt list model over the rows; the view keeps its current,
selected and hidden rows attached to the rows they name (persistent
indexes), so they are renumbered when rows are inserted, removed or moved. -/

/-- Renumbering of a row `r` of the view when a row is inserted at 0. -/
def rowAfterInsert (r : Nat) : Nat :=
  r + 1

/-- Renumbering of a row `r ≠ i` of the view when row `i` is removed. -/
def rowAfterRemove (i r : Nat) : Nat :=
  if i < r then r - 1 else r

/-- Renumbering of a row `r` of the view when row `i` is moved to row 0. -/
def rowAfterMove (i r : Nat) : Nat :=
  if r = i then 0 else if r < i then r + 1 else r

/-- Modelled from the spec: `ClipboardModel::insertRow(0)`, absent from the
sources; it prepends one empty row, the new head ("prepends the new item"). -/
def insertRow0 (b : ClipboardBrowser) : ClipboardBrowser :=
  { b with
    m := QVariant.str "" :: b.m
    current := if 0 ≤ b.current then b.current + 1 else b.current
    selected := b.selected.map rowAfterInsert
    hidden := b.hidden.map rowAfterInsert }

/-- Modelled from the spec: `ClipboardModel::removeRow(i)`, absent from the
sources; it deletes the item at `i`, and an index out of range is a no-op. The
current row of the selection model moves to the row above the removed one, else
to the row below it, else becomes invalid. -/
def removeRow (i : Nat) (b : ClipboardBrowser) : ClipboardBrowser :=
  if i < b.m.length then
    { b with
      m := b.m.eraseIdx i
      current :=
        if b.current = (i : Int) then
          (if 0 < i then (i : Int) - 1 else if i + 1 < b.m.length then 0 else -1)
        else if (i : Int) < b.current then b.current - 1 else b.current
      selected := (b.selected.filter (fun r => r != i)).map (rowAfterRemove i)
      hidden := (b.hidden.filter (fun r => r != i)).map (rowAfterRemove i) }
  else b

/-- Modelled from the spec: `ClipboardModel::move(i, 0)`, absent from the
sources; it relocates the item at `i` to position 0 and keeps the relative
order of the other items; an index out of range is a no-op. -/
def move0 (i : Nat) (b : ClipboardBrowser) : ClipboardBrowser :=
  match b.m.get? i with
  | some v =>
    { b with
      m := v :: b.m.eraseIdx i
      current := if 0 ≤ b.current then (rowAfterMove i b.current.toNat : Int) else b.current
      selected := b.selected.map (rowAfterMove i)
      hidden := b.hidden.map (rowAfterMove i) }
  | none => b

/-- Modelled from the spec: `ClipboardModel::isFiltered(i)`, absent from the
sources; a row is filtered out when a pattern is set and its text does not
match ("visible if the store is unfiltered, or the item text matches"). -/
def isFiltered (b : ClipboardBrowser) (i : Nat) : Bool :=
  match b.m_re with
  | none => false
  | some re => !(re (itemTextAt b i))

/-- `QListView::setRowHidden(0, true)`. -/
def setRowHidden0 (b : ClipboardBrowser) : ClipboardBrowser :=
  if 0 ∈ b.hidden then b else { b with hidden := 0 :: b.hidden }

/-! ## Monitoring and the push half of `sync` -/

/-- `ClipboardBrowser::startMonitoring`: starts the polling timer. -/
def startMonitoring (b : ClipboardBrowser) : ClipboardBrowser :=
  { b with timer := true }

/-- `ClipboardBrowser::stopMonitoring`: stops the polling timer. -/
def stopMonitoring (b : ClipboardBrowser) : ClipboardBrowser :=
  { b with timer := false }

/-- The call `sync(true, mode)`, first item to clipboard: `stopMonitoring()`,
then `return` when the model is empty; an image is set on both channels and
`m_lastSelection` is cleared; a text is set on each channel whose text differs
and becomes `m_lastSelection`; then `startMonitoring()`. -/
def syncListToClipboard (b : ClipboardBrowser) : ClipboardBrowser :=
  let b := stopMonitoring b
  match b.m with
  | [] => b
  | QVariant.image img :: _ =>
    startMonitoring { b with
      clip := (b.clip.setImage img Mode.Clipboard).setImage img Mode.Selection
      m_lastSelection := "" }
  | QVariant.str text :: _ =>
    let c1 := if text ≠ b.clip.text Mode.Clipboard then b.clip.setText text Mode.Clipboard else b.clip
    let c2 := if text ≠ c1.text Mode.Selection then c1.setText text Mode.Selection else c1
    startMonitoring { b with clip := c2, m_lastSelection := text }

/-- `ClipboardBrowser::dataChanged(first, last)`, the slot run when the model
changes the data of row `first`: `if ( first.row() == 0 ) sync();`. -/
def dataChanged (first : Nat) (b : ClipboardBrowser) : ClipboardBrowser :=
  if first = 0 then syncListToClipboard b else b

/-- The call `m->setData( index(0), value )`: row 0 takes the value and the
model signals `dataChanged` for it. Without a row 0 the index is invalid and
nothing is set. -/
def setData0 (value : QVariant) (b : ClipboardBrowser) : ClipboardBrowser :=
  match b.m with
  | [] => b
  | _ :: rest => dataChanged 0 { b with m := value :: rest }

/-! ## Inserting items -/

/-- `ClipboardBrowser::add(const QImage &)`: insert row 0 and set the image.
There is neither a search for an identical item nor a size limit here. -/
def addImage (image : QImage) (b : ClipboardBrowser) : Bool × ClipboardBrowser :=
  (true, setData0 (QVariant.image image) (insertRow0 b))

/-- The loop `for(; i < m->rowCount(); i++) if( txt == itemText(i) ) break;` of
`add`: the first row whose text equals `txt`, and `rowCount` when there is
none. -/
def findSame (txt : String) (b : ClipboardBrowser) : Nat :=
  b.m.findIdx (fun v => decide (txt = v.toString))

/-- `ClipboardBrowser::add(const QString &txt, bool ignore_empty)`. -/
def add (txt : String) (ignore_empty : Bool) (b : ClipboardBrowser) : Bool × ClipboardBrowser :=
  -- ignore empty
  if ignore_empty && isBlank txt then (false, b)
  else
    -- find same item
    let i := findSame txt b
    -- found identical item: nothing to do when it is row 0
    if i < rowCount b ∧ i = 0 then (true, b)
    else
      -- found identical item: remove
      let b1 := if i < rowCount b then removeRow i b else b
      -- create new item
      let b2 := setData0 (QVariant.str txt) (insertRow0 b1)
      -- filter item
      let b3 := if isFiltered b2 0 then setRowHidden0 b2 else b2
      -- list size limit
      let b4 := if (rowCount b3 : Int) > b3.m_maxitems then removeRow (rowCount b3 - 1) b3 else b3
      -- save
      let b5 := if !b4.timer_save then { b4 with timer_save := true } else b4
      (true, b5)

/-- `ClipboardBrowser::add(const QVariant &)`: an image goes through
`add(const QImage &)`, everything else through `add(value.toString())`. -/
def addVariant (value : QVariant) (b : ClipboardBrowser) : Bool × ClipboardBrowser :=
  match value with
  | QVariant.image img => addImage img b
  | QVariant.str s => add s true b

/-- `ClipboardBrowser::addItems`: the items are added from the last one to the
first one. -/
def addItems (items : List String) (b : ClipboardBrowser) : ClipboardBrowser :=
  items.reverse.foldl (fun acc it => (add it true acc).2) b

/-! ## Synchronisation with the clipboard -/

/-- `ClipboardBrowser::sync(list_to_clipboard, mode)`. The push half is
`syncListToClipboard`. The pull half reads the text of the channel `mode`; a
non-empty text that differs from the text of row 0 is added, then the text is
set on the clipboard channel, on the selection channel when it differs there,
and becomes `m_lastSelection`. Without text, a channel without any format is
set to the empty text, and an image that differs from the data of row 0 is
added. The polling timer is stopped first and started last. -/
def sync (list_to_clipboard : Bool) (mode : Mode) (b : ClipboardBrowser) : ClipboardBrowser :=
  if list_to_clipboard then syncListToClipboard b
  else
    let b := stopMonitoring b
    let text := b.clip.text mode
    if text ≠ "" then
      let current := itemText b 0
      let b1 := if text ≠ current then (add text true b).2 else b
      let c1 := b1.clip.setText text Mode.Clipboard
      -- set selection only if it is different
      let c2 := if text ≠ c1.text Mode.Selection then c1.setText text Mode.Selection else c1
      startMonitoring { b1 with clip := c2, m_lastSelection := text }
    else
      match b.clip.mimeData mode with
      | QMimeData.noFormats => startMonitoring { b with clip := b.clip.setText text mode }
      | QMimeData.image img =>
        if some (QVariant.image img) ≠ itemData b 0 then
          startMonitoring (addVariant (QVariant.image img) b).2
        else startMonitoring b
      | _ => startMonitoring b

/-- `ClipboardBrowser::clipboardChanged(mode)`: a change of the selection is
not handled while the browser has the focus; the wait for the mouse button
and the modifier keys to be released changes no state; then `sync(false, mode)`. -/
def clipboardChanged (mode : Mode) (b : ClipboardBrowser) : ClipboardBrowser :=
  if mode = Mode.Selection ∧ b.hasFocus = true then b
  else sync false mode b

/-- `ClipboardBrowser::checkClipboard`, the poll tick. -/
def checkClipboard (b : ClipboardBrowser) : ClipboardBrowser :=
  if b.clip.text Mode.Clipboard ≠ b.m_lastSelection then
    clipboardChanged Mode.Clipboard b
  else if b.clip.text Mode.Selection ≠ b.m_lastSelection then
    clipboardChanged Mode.Selection b
  else b

/-- `ClipboardBrowser::moveToClipboard(const QString &txt)`: a new row 0 is
inserted and set to `txt`, then `sync()`. Identical items are not removed
(the source has a TODO for it). -/
def moveToClipboardText (txt : String) (b : ClipboardBrowser) : ClipboardBrowser :=
  sync true Mode.Clipboard (setData0 (QVariant.str txt) (insertRow0 b))

/-- `ClipboardBrowser::moveToClipboard(int i)`: for `i > 0`, `m->move(i,0)` and
`sync()`; nothing otherwise. -/
def moveToClipboard (i : Int) (b : ClipboardBrowser) : ClipboardBrowser :=
  if i > 0 then sync true Mode.Clipboard (move0 i.toNat b)
  else b

/-! ## Current row and removal -/

/-- Modelled from the spec: `ClipboardModel::getRowNumber(row, cycle)`, absent
from the sources; a row inside the model is itself ("selection moves to N"), a
row outside it is brought to the nearest end, or to the opposite end when
`cycle` is set, and the empty model has no row (`-1`). -/
def getRowNumber (b : ClipboardBrowser) (row : Int) (cycle : Bool) : Int :=
  let n : Int := rowCount b
  if n = 0 then -1
  else if row ≥ n then (if cycle then 0 else n - 1)
  else if row < 0 then (if cycle then n - 1 else 0)
  else row

/-- `QListView::isRowHidden(i)`. -/
def isRowHidden (b : ClipboardBrowser) (i : Int) : Bool :=
  decide (0 ≤ i) && b.hidden.contains i.toNat

/-- The loop `while ( isRowHidden(i) )` of `setCurrent`, run for at most `fuel`
rounds: step in direction `dir` until a visible row, an end of the list (when
not cycling) or the start row `cur` is reached. -/
def setCurrentLoop (b : ClipboardBrowser) (dir : Int) (cycle : Bool) (cur : Int) :
    Nat → Int → Int
  | 0, i => i
  | fuel + 1, i =>
    if isRowHidden b i then
      let i2 := getRowNumber b (i + dir) cycle
      if (!cycle && (i2 == 0 || i2 == (rowCount b : Int) - 1)) || i2 == cur then i2
      else setCurrentLoop b dir cycle cur fuel i2
    else i

/-- `ClipboardBrowser::setCurrent(row, cycle, selection)`: the first visible
row from `row` on becomes the current index; it is added to the selection
when `selection` is set, and becomes the whole selection otherwise. An index
outside the model is invalid: no current row, and nothing is selected by it. -/
def setCurrent (row : Int) (cycle : Bool) (selection : Bool) (b : ClipboardBrowser) :
    ClipboardBrowser :=
  -- direction
  let cur := b.current
  let dir : Int := if cur < row then 1 else -1
  -- select first visible
  let i0 := getRowNumber b row cycle
  let i := setCurrentLoop b dir cycle i0 (rowCount b + 1) i0
  let valid := decide (0 ≤ i ∧ i < (rowCount b : Int))
  if selection then
    let sel1 :=
      if (valid && b.selected.contains i.toNat)
          && (decide (0 ≤ b.current) && b.selected.contains b.current.toNat)
      then b.selected.filter (fun r => r != b.current.toNat) else b.selected
    { b with
      current := if valid then i else -1
      selected := if valid && !sel1.contains i.toNat then sel1 ++ [i.toNat] else sel1 }
  else
    { b with
      current := if valid then i else -1
      selected := if valid then [i.toNat] else [] }

/-- The `do ... while( !list.isEmpty() )` loop of `remove`: the first selected
row is removed until nothing is selected; returns the last row removed, whether
row 0 was among them, and the browser. -/
def removeLoop : Nat → Int → Bool → ClipboardBrowser → Int × Bool × ClipboardBrowser
  | 0, i, need_sync, b => (i, need_sync, b)
  | fuel + 1, i, need_sync, b =>
    match b.selected with
    | [] => (i, need_sync, b)
    | r :: _ => removeLoop fuel (r : Int) (need_sync || r == 0) (removeRow r b)

/-- `ClipboardBrowser::remove()`: removes the selected rows, makes the row
after them current, and pushes the new head when row 0 was removed. -/
def remove (b : ClipboardBrowser) : ClipboardBrowser :=
  if b.selected.isEmpty then b
  else
    let (i, need_sync, b1) := removeLoop b.selected.length 0 false b
    -- select next
    let b2 := setCurrent i false false b1
    if need_sync then sync true Mode.Clipboard b2 else b2

/-! ## Persistence -/

/-- `ClipboardBrowser::saveItems`: the stream written, `itemData(i)` for `i`
from `rowCount-1` down to 0. -/
def saveItems (b : ClipboardBrowser) : List QVariant :=
  b.m.reverse

/-- Modelled from the spec: `ClipboardModel::clear()`, absent from the sources;
the model is left without rows, so the view has no current, selected or hidden
row either. -/
def clear (b : ClipboardBrowser) : ClipboardBrowser :=
  { b with m := [], current := -1, selected := [], hidden := [] }

/-- The restore loop of `readSettings`: `m->clear()`, then every record read
from the stream is added, an image with `add(const QImage &)` and anything
else with `add( v.toString() )`. The call `m->setMaxItems` in between finds
the model empty. -/
def restoreItems (stream : List QVariant) (b : ClipboardBrowser) : ClipboardBrowser :=
  stream.foldl (fun acc v => (addVariant v acc).2) (clear b)

/-- `ClipboardBrowser::readSettings`, as far as the items go: the capacity is
read, the items are restored, the save timer is stopped and the clipboard is
pulled with `sync(false)`. -/
def readSettings (maxitems : Int) (stream : List QVariant) (b : ClipboardBrowser) :
    ClipboardBrowser :=
  let b1 := restoreItems stream { b with m_maxitems := maxitems }
  sync false Mode.Clipboard { b1 with timer_save := false }

/-! ## Qt string functions used by the command handler

Strings are compared by character and measured, as `QString` does, in
UTF-16 code units. Numbers are read and written in the C locale. -/

/-- The `QChar`s of a `QString`: its UTF-16 code units, in order. A character
of the Basic Multilingual Plane is one unit, any other character is a high
surrogate followed by a low surrogate. -/
def utf16 (s : String) : List Nat :=
  s.data.flatMap (fun c =>
    if c.toNat < 0x10000 then [c.toNat]
    else [0xD800 + (c.toNat - 0x10000) / 0x400, 0xDC00 + (c.toNat - 0x10000) % 0x400])

/-- `QChar::digitValue()` for the decimal digits `0` to `9`. -/
def digitValue (c : Char) : Option Nat :=
  if c.isDigit then some (c.toNat - 48) else none

/-- `QString::toInt(&ok)` in base 10: surrounding white space is skipped, one
sign is allowed, at least one digit is required, nothing else may follow, and
the value has to fit an `int`. `none` stands for `ok == false`. -/
def toInt (s : String) : Option Int :=
  let cs := ((s.data.dropWhile isSpace).reverse.dropWhile isSpace).reverse
  let neg := cs.head? == some '-'
  let ds := if cs.head? == some '-' || cs.head? == some '+' then cs.tail else cs
  if ds.isEmpty || !(ds.all Char.isDigit) then none
  else
    let v : Int := ds.foldl (fun acc d => 10 * acc + ((d.toNat - 48 : Nat) : Int)) 0
    let v := if neg then -v else v
    if -2147483648 ≤ v ∧ v ≤ 2147483647 then some v else none

/-- The number of a place marker, read from the characters that follow `%`
(or `%L`): one digit, or two when a second digit follows; also returns the
characters after the marker. -/
def escapeNumber : List Char → Option (Nat × List Char)
  | [] => none
  | [d1] => (digitValue d1).map (fun a => (a, []))
  | d1 :: d2 :: rest =>
    match digitValue d1, digitValue d2 with
    | some a, some b => some (10 * a + b, rest)
    | some a, none => some (a, d2 :: rest)
    | none, _ => none

/-- A place marker `%N` or `%LN` read from the characters that follow `%`. -/
def parseEscape : List Char → Option (Nat × List Char)
  | 'L' :: rest => escapeNumber rest
  | cs => escapeNumber cs

/-- The scan of `findArgEscapes` in `QString::arg`: the lowest number among
the place markers of the string, `none` when it has no marker. The first
argument bounds the number of steps; the length of the string is enough. -/
def findArgEscapes : Nat → List Char → Option Nat
  | 0, _ => none
  | _ + 1, [] => none
  | fuel + 1, c :: rest =>
    if c = '%' then
      match parseEscape rest with
      | some (n, rest2) =>
        match findArgEscapes fuel rest2 with
        | some k => some (min n k)
        | none => some n
      | none => findArgEscapes fuel rest
    else findArgEscapes fuel rest

/-- The copy of `replaceArgEscapes` in `QString::arg`: every place marker with
the number `min_escape` is replaced by `a`, every other character is kept. -/
def replaceArgEscapes (min_escape : Nat) (a : List Char) : Nat → List Char → List Char
  | 0, cs => cs
  | _ + 1, [] => []
  | fuel + 1, c :: rest =>
    if c = '%' then
      match parseEscape rest with
      | some (n, rest2) =>
        if n = min_escape then a ++ replaceArgEscapes min_escape a fuel rest2
        else c :: replaceArgEscapes min_escape a fuel rest
      | none => c :: replaceArgEscapes min_escape a fuel rest
    else c :: replaceArgEscapes min_escape a fuel rest

/-- `QString::arg(const QString &a)`: the place markers with the lowest number
are replaced by `a`; a string without a place marker is returned as it is. -/
def arg (s a : String) : String :=
  match findArgEscapes s.data.length s.data with
  | some n => String.mk (replaceArgEscapes n a.data s.data.length s.data)
  | none => s

/-- `QString::arg(int a)`: `arg` with the decimal representation of `a`. -/
def argInt (s : String) (a : Int) : String :=
  arg s (toString a)

/-- `QString::replace(QString("\\n"), QString('\n'))` on the characters: every
backslash followed by `n` becomes a newline. -/
def replaceBackslashN : List Char → List Char
  | [] => []
  | [c] => [c]
  | c :: d :: rest =>
    if c = Char.ofNat 92 ∧ d = 'n' then '\n' :: replaceBackslashN rest
    else c :: replaceBackslashN (d :: rest)

/-! ## The command handler -/

/-- What `MainWindow::handleMessage` does to the outside, in order: a message
sent to the client with `peer.sendMessage`, a tray message (its text as the
sequence of its `QChar`s), an error shown, and the calls to the window, the
action dialog and the editor. -/
inductive Event where
  | sendMessage (msg : String)
  | showMessage (title : String) (msg : List Nat)
  | showError (msg : String)
  | toggleVisible
  | exit
  | showMenu
  | openActionDialog (row : Int)
  | action (row : Int) (cmd sep : String)
  | openEditor (text : String)
deriving DecidableEq, Repr

/-- The messages sent to the client, in order. -/
def sentMessages (events : List Event) : List String :=
  events.filterMap (fun e => match e with
    | Event.sendMessage msg => some msg
    | _ => none)

/-- `ClipboardBrowser::openEditor`: an editor is started on `itemText()`, the
text of the current index. -/
def openEditor (c : ClipboardBrowser) : Event :=
  Event.openEditor (itemText c (-1))

/-- The row argument of `show`, `select` and `remove`: the first remaining
argument read with `toInt`, and 0 when it is absent or not an integer. -/
def rowArgument (args : List String) : Int :=
  match args with
  | [] => 0
  | a :: _ => (toInt a).getD 0

/-- The `do ... while( !args.isEmpty() )` loop of the `list` command: an
argument that is an integer sends the text of that row (one space when the
text is empty) formatted with `fmt.arg(arg).arg(row)`; any other argument
becomes the format, with `\n` unescaped. -/
def listLoop (c : ClipboardBrowser) : String → List String → List Event
  | _, [] => []
  | fmt, a :: rest =>
    match toInt a with
    | some row =>
      let text := itemText c row
      let text := if text = "" then " " else text
      Event.sendMessage (argInt (arg fmt text) row) :: listLoop c fmt rest
    | none => listLoop c (String.mk (replaceBackslashN a.data)) rest

/-- The tail of the `action` branch once the row is known: the command, the
optional separator (newline by default); more arguments are a syntax error,
shown and followed by the terminator; otherwise the action runs, the items it
produces are added, and the handler returns at once. -/
def actionCommand (actionItems : List String) (c : ClipboardBrowser) (row : Int)
    (cmd : String) (args : List String) : ClipboardBrowser × List Event :=
  let sep := match args with
    | [] => "\n"
    | s :: _ => s
  if !args.tail.isEmpty then
    (c, [Event.showError "Bad \"action\" command syntax!\naction [row] cmd [sep]",
      Event.sendMessage ""])
  else
    (addItems actionItems c, [Event.action row cmd sep])

/-- `MainWindow::handleMessage` on the deserialised argument list `message`.
`actionItems` are the items the action dialog emits with `addItems` when an
action is run. The result is the browser and the events in order, and `none`
when the handler reads the argument list outside its bounds. -/
def handleMessage (actionItems : List String) (message : List String) (c0 : ClipboardBrowser) :
    Option (ClipboardBrowser × List Event) :=
  let cmd := message.head?.getD ""
  let args := message.tail
  -- force check clipboard
  let c := checkClipboard c0
  -- empty message tells client to quit
  let done := fun (r : ClipboardBrowser × List Event) =>
    some (r.1, r.2 ++ [Event.sendMessage ""])
  if cmd = "toggle" then done (c, [Event.toggleVisible])
  else if cmd = "exit" then done (c, [Event.sendMessage "", Event.exit])
  else if cmd = "menu" then done (c, [Event.showMenu])
  else if cmd = "action" then
    match args with
    | [] => done (c, [Event.openActionDialog 0])
    | a :: args1 =>
      match toInt a with
      | some row =>
        match args1 with
        | [] => done (c, [Event.showError "Bad \"action\" command syntax!\naction [row] cmd [sep]"])
        | a2 :: args2 => some (actionCommand actionItems c row a2 args2)
      | none => some (actionCommand actionItems c 0 a args1)
  else if cmd = "add" then done ((add (String.intercalate " " args) true c).2, [])
  else if cmd = "edit" then
    let c1 := setCurrent 0 false false c
    done (c1, [openEditor c1])
  else if cmd = "new" then
    match args.get? 1 with
    | none => none
    | some txt =>
      let c1 := setCurrent 0 false false (add txt false c).2
      done (c1, [openEditor c1])
  else if cmd = "show" then
    let title := args.head?.getD ""
    let row := rowArgument args.tail
    let msg := utf16 (itemText c row)
    let msg := if msg.length > 500
      then msg.take 500 ++ utf16 "\n\n\n< --- CROPPED --- >" else msg
    done (c, [Event.showMessage title msg])
  else if cmd = "select" then done (moveToClipboard (rowArgument args) c, [])
  else if cmd = "remove" then done (remove (setCurrent (rowArgument args) false false c), [])
  else if cmd = "length" ∨ cmd = "count" ∨ cmd = "size" then
    done (c, [Event.sendMessage (argInt "%1\n" (length c))])
  else if cmd = "list" then
    match args with
    | [] => done (c, [Event.sendMessage (itemText c 0)])
    | _ :: _ => done (c, listLoop c "%1\n" args)
  else done (c, [Event.showError "Unknown command"])

/-! ## Editing and filtering -/

/-- The loop of `itemModified`, `if ( qHash(itemText(i)) == hash )`: the first
row whose text hashes to `hash`, and `rowCount` when there is none. The hash
function `qHash` of Qt is a parameter. -/
def findHash (qHash : String → Nat) (hash : Nat) (b : ClipboardBrowser) : Nat :=
  b.m.findIdx (fun v => decide (qHash v.toString = hash))

/-- `ClipboardBrowser::itemModified(hash, str)`: the first row whose text
hashes to `hash` is removed; then a `str` that is not empty is added with
`add(str)`, followed by `sync()`. -/
def itemModified (qHash : String → Nat) (hash : Nat) (str : String) (b : ClipboardBrowser) :
    ClipboardBrowser :=
  -- find item with qHash == hash and remove it
  let i := findHash qHash hash b
  let b1 := if i < rowCount b then removeRow i b else b
  -- add new item
  if str ≠ "" then sync true Mode.Clipboard (add str true b1).2 else b1

/-- `qHash(const QString &)` of Qt 4: for every character, `h = (h << 4) + c`,
then the top four bits `g` are folded in with `h ^= g >> 23` and cleared, all
on 32 bits. -/
def qHash (s : String) : Nat :=
  s.data.foldl (fun h c =>
    let h1 := (h * 16 + c.toNat) % 2 ^ 32
    let g := h1 / 2 ^ 28 * 2 ^ 28
    (h1 ^^^ (g >>> 23)) % 2 ^ 28) 0

/-- Modelled from the spec: `ClipboardModel::setSearch(re)`, absent from the
sources; it "compiles a text pattern or clears filtering", here by keeping the
predicate of the pattern, if any. -/
def setSearch (re : Option (String → Bool)) (b : ClipboardBrowser) : ClipboardBrowser :=
  { b with m_re := re }

/-- `QListView::reset()`: the view forgets its hidden rows, its selection and
its current index. -/
def reset (b : ClipboardBrowser) : ClipboardBrowser :=
  { b with current := -1, selected := [], hidden := [] }

/-- `QListView::setRowHidden(i, true)`. -/
def setRowHidden (i : Nat) (b : ClipboardBrowser) : ClipboardBrowser :=
  if i ∈ b.hidden then b else { b with hidden := i :: b.hidden }

/-- `QAbstractItemView::setCurrentIndex(index(i))`: a row of the model becomes
the current index and the whole selection; an index outside the model is
invalid, which leaves no current index and an empty selection. -/
def setCurrentIndex (i : Int) (b : ClipboardBrowser) : ClipboardBrowser :=
  if 0 ≤ i ∧ i < (rowCount b : Int) then { b with current := i, selected := [i.toNat] }
  else { b with current := -1, selected := [] }

/-- The tail of `filterItems`, "hide filtered items": `reset()`, then every
row the model reports as filtered is hidden and the first other row is
remembered in `first` (initially `-1`); at the end `index(first)` becomes the
current index. -/
def hideFilteredItems (b : ClipboardBrowser) : ClipboardBrowser :=
  let r := (List.range (rowCount b)).foldl
    (fun (acc : Int × ClipboardBrowser) i =>
      if isFiltered acc.2 i then (acc.1, setRowHidden i acc.2)
      else if acc.1 = -1 then ((i : Int), acc.2)
      else acc)
    (-1, reset b)
  -- select first visible
  setCurrentIndex r.1 r.2

/-- `ClipboardBrowser::filterItems(str)`. The empty string clears the search
and shows every row. A string that `toInt` reads as a number `n` clears the
search of the model, calls `setCurrent(n)` and returns. Any other string is
compiled as a case-insensitive `QRegExp`, whose matcher is the parameter
`regExp` (pattern, then text), and the rows that do not match are hidden. The
signal `hideSearch` goes to the main window. -/
def filterItems (regExp : String → String → Bool) (str : String) (b : ClipboardBrowser) :
    ClipboardBrowser :=
  -- if search string empty: all items visible
  if str = "" then hideFilteredItems (setSearch none b)
  else
    -- if search string is a number N: highlight Nth item
    match toInt str with
    | some n => setCurrent n false false (setSearch none b)
    | none => hideFilteredItems (setSearch (some (regExp str)) b)

/-- The matcher of the case-insensitive `QRegExp` for the one-letter pattern
"a": the text contains the letter `a` or `A`. It stands for the regular
expression engine where no other pattern is compiled. -/
def regExpLetterA (_pattern : String) (text : String) : Bool :=
  text.data.any (fun ch => ch = 'a' || ch = 'A')

/-- The guarded write of `sync`, `if ( text != clip->text(mode) )
clip->setText(text, mode);`. -/
def setTextIfDifferent (c : QClipboard) (text : String) (mode : Mode) : QClipboard :=
  if text ≠ c.text mode then c.setText text mode else c

/-- A browser as `readSettings` leaves it before the items are restored: the
model cleared, no search pattern, the capacity `maxitems`, nothing selected. -/
def mkBrowser (maxitems : Int) (clip : QClipboard) : ClipboardBrowser :=
  { m := []
    m_re := none
    m_maxitems := maxitems
    m_lastSelection := ""
    clip := clip
    timer := true
    timer_save := false
    hasFocus := false
    current := -1
    selected := []
    hidden := [] }

/-- A clipboard that holds nothing on either channel and has not been written. -/
def emptyClipboard : QClipboard :=
  { clipboard := QMimeData.noFormats, selection := QMimeData.noFormats, writes := [] }

/-! ## Theorems -/

/-! ### Basic facts about the operations -/

theorem itemText_of_lt (b : ClipboardBrowser) (i : Nat) (h : i < b.m.length) :
    itemText b (i : Int) = (b.m[i]).toString := by
  have h1 : ¬ ((i : Int) ≥ (b.m.length : Int)) := by omega
  have h2 : ¬ ((i : Int) = -1) := by omega
  simp [itemText, itemTextAt, rowCount, h1, h2, List.get?_eq_getElem?, List.getElem?_eq_getElem h]

theorem syncListToClipboard_m (b : ClipboardBrowser) : (syncListToClipboard b).m = b.m := by
  unfold syncListToClipboard stopMonitoring startMonitoring
  rcases hb : b.m with _ | ⟨v, rest⟩
  · simp [hb]
  · cases v <;> simp [hb]

theorem syncListToClipboard_maxitems (b : ClipboardBrowser) :
    (syncListToClipboard b).m_maxitems = b.m_maxitems := by
  unfold syncListToClipboard stopMonitoring startMonitoring
  rcases hb : b.m with _ | ⟨v, rest⟩
  · simp [hb]
  · cases v <;> simp [hb]

theorem setData0_insertRow0_m (v : QVariant) (b : ClipboardBrowser) :
    (setData0 v (insertRow0 b)).m = v :: b.m := by
  simp [setData0, insertRow0, dataChanged, syncListToClipboard_m]

theorem setData0_insertRow0_maxitems (v : QVariant) (b : ClipboardBrowser) :
    (setData0 v (insertRow0 b)).m_maxitems = b.m_maxitems := by
  simp [setData0, insertRow0, dataChanged, syncListToClipboard_maxitems]

theorem removeRow_m (i : Nat) (b : ClipboardBrowser) : (removeRow i b).m = b.m.eraseIdx i := by
  unfold removeRow
  split
  · rfl
  · rw [List.eraseIdx_of_length_le (by omega)]

theorem removeRow_maxitems (i : Nat) (b : ClipboardBrowser) :
    (removeRow i b).m_maxitems = b.m_maxitems := by
  unfold removeRow
  split <;> rfl

theorem setRowHidden0_m (b : ClipboardBrowser) : (setRowHidden0 b).m = b.m := by
  unfold setRowHidden0
  split <;> rfl

theorem setRowHidden0_maxitems (b : ClipboardBrowser) :
    (setRowHidden0 b).m_maxitems = b.m_maxitems := by
  unfold setRowHidden0
  split <;> rfl

theorem ite_setRowHidden0_m (c : Prop) [Decidable c] (b : ClipboardBrowser) :
    (if c then setRowHidden0 b else b).m = b.m := by
  split
  · exact setRowHidden0_m b
  · rfl

theorem ite_setRowHidden0_maxitems (c : Prop) [Decidable c] (b : ClipboardBrowser) :
    (if c then setRowHidden0 b else b).m_maxitems = b.m_maxitems := by
  split
  · exact setRowHidden0_maxitems b
  · rfl

/-- The rows after `add` when the text is not ignored and is not the head
already: the first identical row is removed, the text is prepended, and the
last row is dropped when the count exceeds `m_maxitems`. -/
theorem add_m_of_insert (txt : String) (ie : Bool) (b : ClipboardBrowser)
    (hb : (ie && isBlank txt) = false) (hi : ¬ (findSame txt b < rowCount b ∧ findSame txt b = 0)) :
    (add txt ie b).2.m =
      if ((b.m.eraseIdx (findSame txt b)).length + 1 : Int) > b.m_maxitems
      then (QVariant.str txt :: b.m.eraseIdx (findSame txt b)).eraseIdx
        (b.m.eraseIdx (findSame txt b)).length
      else QVariant.str txt :: b.m.eraseIdx (findSame txt b) := by
  have key : ∀ b1 : ClipboardBrowser, b1.m = b.m.eraseIdx (findSame txt b) →
      b1.m_maxitems = b.m_maxitems →
      ∀ b3 : ClipboardBrowser, b3.m = QVariant.str txt :: b1.m → b3.m_maxitems = b1.m_maxitems →
      (let b4 := if (rowCount b3 : Int) > b3.m_maxitems then removeRow (rowCount b3 - 1) b3 else b3
       let b5 := if !b4.timer_save then { b4 with timer_save := true } else b4
       b5).m =
      if ((b.m.eraseIdx (findSame txt b)).length + 1 : Int) > b.m_maxitems
      then (QVariant.str txt :: b.m.eraseIdx (findSame txt b)).eraseIdx
        (b.m.eraseIdx (findSame txt b)).length
      else QVariant.str txt :: b.m.eraseIdx (findSame txt b) := by
    intro b1 h1 h1m b3 h3 h3m
    have hrc : rowCount b3 = (b.m.eraseIdx (findSame txt b)).length + 1 := by
      simp [rowCount, h3, h1]
    simp only [hrc, h3m, h1m]
    push_cast
    by_cases hc : ((b.m.eraseIdx (findSame txt b)).length + 1 : Int) > b.m_maxitems
    · simp only [hc, if_true]
      split <;> simp [removeRow_m, h3, h1]
    · simp only [hc, if_false]
      split <;> simp [h3, h1]
  unfold add
  rw [if_neg (by simp [hb]), if_neg hi]
  simp only []
  apply key (if findSame txt b < rowCount b then removeRow (findSame txt b) b else b)
  · split
    · exact removeRow_m _ _
    · rw [List.eraseIdx_of_length_le (by simp only [rowCount] at *; omega)]
  · split
    · exact removeRow_maxitems _ _
    · rfl
  · rw [ite_setRowHidden0_m, setData0_insertRow0_m]
  · rw [ite_setRowHidden0_maxitems, setData0_insertRow0_maxitems]

/-- C1. When the text `t` equals the text of the item at index 0 of a store
that has one, `add(t)` (with either value of `ignore_empty`) returns the
browser it was given: the rows, their order and everything else are unchanged. -/
theorem add_head_is_noop (b : ClipboardBrowser) (t : String) (ignore_empty : Bool)
    (h0 : 0 < rowCount b) (ht : t = itemText b 0) :
    (add t ignore_empty b).2 = b := by
  unfold add
  split
  · rfl
  · have hf : findSame t b = 0 := by
      have hlen : 0 < b.m.length := h0
      have := itemText_of_lt b 0 hlen
      simp only [Nat.cast_zero] at this
      unfold findSame
      rw [List.findIdx_eq hlen]
      constructor
      · simp [ht, this]
      · intro j hj; omega
    simp [hf, h0]

/-- C2. In a store whose length is at most `m_maxitems`, adding a non-blank
text `t` whose first occurrence is at index `k > 0` gives `t` followed by the
old rows without row `k`, in their old order; the length is unchanged, so
nothing else is trimmed. -/
theorem add_duplicate_moves_to_head (b : ClipboardBrowser) (t : String) (ignore_empty : Bool)
    (k : Nat) (hcap : (rowCount b : Int) ≤ b.m_maxitems) (hnb : isBlank t = false)
    (hk0 : 0 < k) (hk : k < rowCount b) (hat : itemText b (k : Int) = t)
    (hfirst : ∀ j : Nat, j < k → itemText b (j : Int) ≠ t) :
    (add t ignore_empty b).1 = true
      ∧ (add t ignore_empty b).2.m = QVariant.str t :: b.m.eraseIdx k
      ∧ rowCount (add t ignore_empty b).2 = rowCount b := by
  have hlen : k < b.m.length := hk
  have hf : findSame t b = k := by
    unfold findSame
    rw [List.findIdx_eq hlen]
    constructor
    · rw [itemText_of_lt b k hlen] at hat
      simp [hat]
    · intro j hj
      have hjl : j < b.m.length := by omega
      have := hfirst j hj
      rw [itemText_of_lt b j hjl] at this
      simpa using fun h => this h.symm
  have hbl : (ignore_empty && isBlank t) = false := by simp [hnb]
  have hi : ¬ (findSame t b < rowCount b ∧ findSame t b = 0) := by
    rw [hf]; omega
  have hm := add_m_of_insert t ignore_empty b hbl hi
  rw [hf] at hm
  have hel : (b.m.eraseIdx k).length = b.m.length - 1 := by
    rw [List.length_eraseIdx, if_pos hlen]
  have hnt : ¬ (((b.m.eraseIdx k).length + 1 : Int) > b.m_maxitems) := by
    rw [hel]
    simp only [rowCount] at hcap
    omega
  rw [if_neg hnt] at hm
  refine ⟨?_, hm, ?_⟩
  · unfold add
    rw [if_neg (by simp [hbl]), if_neg hi]
  · simp only [rowCount, hm, List.length_cons, hel]
    omega

theorem add_duplicate_moves_to_head_witness :
    ((rowCount (add "b" true (add "a" true (mkBrowser 2 emptyClipboard)).2).2 : Int)
        ≤ (add "b" true (add "a" true (mkBrowser 2 emptyClipboard)).2).2.m_maxitems)
      ∧ (add "a" true (add "b" true (add "a" true (mkBrowser 2 emptyClipboard)).2).2).2.m
        = [QVariant.str "a", QVariant.str "b"] := by
  have hb : (add "b" true (add "a" true (mkBrowser 2 emptyClipboard)).2).2.m
      = [QVariant.str "b", QVariant.str "a"] := by decide
  have hmax : (add "b" true (add "a" true (mkBrowser 2 emptyClipboard)).2).2.m_maxitems = 2 := by
    decide
  have hcap : (rowCount (add "b" true (add "a" true (mkBrowser 2 emptyClipboard)).2).2 : Int)
      ≤ (add "b" true (add "a" true (mkBrowser 2 emptyClipboard)).2).2.m_maxitems := by
    rw [hmax]; simp [rowCount, hb]
  have h := add_duplicate_moves_to_head
    (add "b" true (add "a" true (mkBrowser 2 emptyClipboard)).2).2 "a" true 1 hcap
    (by decide) (by decide) (by simp [rowCount, hb])
    (by simp [itemText, itemTextAt, rowCount, hb, QVariant.toString])
    (by
      intro j hj
      have hj0 : j = 0 := by omega
      subst hj0
      simp [itemText, itemTextAt, rowCount, hb, QVariant.toString])
  refine ⟨hcap, ?_⟩
  rw [h.2.1, hb]
  rfl

/-- The text overload of `add` keeps the size limit: a store within the
capacity is within it after `add`. -/
theorem add_rowCount_le_maxitems (txt : String) (ie : Bool) (b : ClipboardBrowser)
    (h : (rowCount b : Int) ≤ b.m_maxitems) :
    (rowCount (add txt ie b).2 : Int) ≤ b.m_maxitems := by
  by_cases hb : (ie && isBlank txt) = true
  · unfold add
    rw [if_pos hb]
    exact h
  · by_cases hi : findSame txt b < rowCount b ∧ findSame txt b = 0
    · unfold add
      rw [if_neg hb]
      simp only []
      rw [if_pos hi]
      exact h
    · have hm := add_m_of_insert txt ie b (by simpa using hb) hi
      have hle : (b.m.eraseIdx (findSame txt b)).length ≤ b.m.length := by
        rw [List.length_eraseIdx]
        split <;> omega
      simp only [rowCount] at h ⊢
      rw [hm]
      split
      · rw [List.length_eraseIdx, if_pos (by simp)]
        simp only [List.length_cons, Nat.add_sub_cancel]
        omega
      · simp only [List.length_cons]
        push_cast
        omega

/-- C3, evaluation at the failing input. With `m_maxitems = 1`, two images
added one after the other through `add(const QImage &)` leave two rows in the
store: the image overload has no size limit. -/
theorem addImage_exceeds_maxitems :
    (addImage ⟨[2]⟩ (addImage ⟨[1]⟩ (mkBrowser 1 emptyClipboard)).2).2.m_maxitems = 1
      ∧ rowCount (addImage ⟨[2]⟩ (addImage ⟨[1]⟩ (mkBrowser 1 emptyClipboard)).2).2 = 2
      ∧ rowCount (addVariant (QVariant.image ⟨[2]⟩)
          (addVariant (QVariant.image ⟨[1]⟩) (mkBrowser 1 emptyClipboard)).2).2 = 2 := by
  decide

/-- C4, evaluation at the failing input. From the empty store, adding the same
image twice leaves it at rows 0 and 1, and `moveToClipboard("a")` called twice
leaves the text "a" at rows 0 and 1: neither path removes an identical item. -/
theorem identical_items_after_insert :
    (addImage ⟨[7]⟩ (addImage ⟨[7]⟩ (mkBrowser 400 emptyClipboard)).2).2.m
        = [QVariant.image ⟨[7]⟩, QVariant.image ⟨[7]⟩]
      ∧ (moveToClipboardText "a" (moveToClipboardText "a" (mkBrowser 400 emptyClipboard))).m
        = [QVariant.str "a", QVariant.str "a"] := by
  decide

/-- C5. For every store, `moveToClipboard(i)` with `i <= 0` returns the
browser it was given (store, clipboard and write log included); and for every
`k` with `0 < k < len` it yields the store that holds the item previously at
`k` at index 0, followed by the other items in their previous order, with the
length unchanged. -/
theorem moveToClipboard_spec (b : ClipboardBrowser) (i : Int) (k : Nat) :
    (i ≤ 0 → moveToClipboard i b = b)
      ∧ (∀ hk : k < b.m.length, 0 < k →
          (moveToClipboard (k : Int) b).m = b.m[k] :: b.m.eraseIdx k
            ∧ rowCount (moveToClipboard (k : Int) b) = rowCount b) := by
  constructor
  · intro hi
    simp only [moveToClipboard]
    rw [if_neg (by omega)]
  · intro hk hk0
    have hm : (moveToClipboard (k : Int) b).m = b.m[k] :: b.m.eraseIdx k := by
      have hpos : ((k : Int) > 0) := by omega
      simp only [moveToClipboard, if_pos hpos, sync, if_true, syncListToClipboard_m,
        Int.toNat_ofNat]
      simp [move0, List.get?_eq_getElem?, List.getElem?_eq_getElem hk]
    refine ⟨hm, ?_⟩
    simp only [rowCount, hm, List.length_cons, List.length_eraseIdx, if_pos hk]
    omega

theorem moveToClipboard_spec_witness :
    moveToClipboard 0 (mkBrowser 400 emptyClipboard) = mkBrowser 400 emptyClipboard
    ∧ moveToClipboard (-1) { mkBrowser 400 emptyClipboard with m := [QVariant.str "x"] }
      = { mkBrowser 400 emptyClipboard with m := [QVariant.str "x"] }
    ∧ moveToClipboard (-1)
        { mkBrowser 400 emptyClipboard with
          m := [QVariant.str "x", QVariant.str "y", QVariant.str "z"] }
      = { mkBrowser 400 emptyClipboard with
          m := [QVariant.str "x", QVariant.str "y", QVariant.str "z"] }
    ∧ (moveToClipboard 2
        { mkBrowser 400 emptyClipboard with
          m := [QVariant.str "x", QVariant.str "y", QVariant.str "z"] }).m
      = [QVariant.str "z", QVariant.str "x", QVariant.str "y"]
    ∧ (moveToClipboard 1
        { mkBrowser 400 emptyClipboard with
          m := [QVariant.str "x", QVariant.str "y", QVariant.str "z"] }).m
      = [QVariant.str "y", QVariant.str "x", QVariant.str "z"] :=
  ⟨(moveToClipboard_spec (mkBrowser 400 emptyClipboard) 0 0).1 (by decide),
   (moveToClipboard_spec { mkBrowser 400 emptyClipboard with m := [QVariant.str "x"] }
      (-1) 0).1 (by decide),
   (moveToClipboard_spec
      { mkBrowser 400 emptyClipboard with
        m := [QVariant.str "x", QVariant.str "y", QVariant.str "z"] } (-1) 0).1 (by decide),
   ((moveToClipboard_spec
      { mkBrowser 400 emptyClipboard with
        m := [QVariant.str "x", QVariant.str "y", QVariant.str "z"] } 0 2).2
      (by decide) (by decide)).1,
   ((moveToClipboard_spec
      { mkBrowser 400 emptyClipboard with
        m := [QVariant.str "x", QVariant.str "y", QVariant.str "z"] } 0 1).2
      (by decide) (by decide)).1⟩

theorem add_maxitems (txt : String) (ie : Bool) (b : ClipboardBrowser) :
    (add txt ie b).2.m_maxitems = b.m_maxitems := by
  unfold add
  split
  · rfl
  · simp only []
    split
    · rfl
    · have h1 : (if findSame txt b < rowCount b then removeRow (findSame txt b) b else b).m_maxitems
          = b.m_maxitems := by
        split
        · exact removeRow_maxitems _ _
        · rfl
      generalize (if findSame txt b < rowCount b then removeRow (findSame txt b) b else b) = b1 at h1 ⊢
      have h3 : (if isFiltered (setData0 (QVariant.str txt) (insertRow0 b1)) 0 = true
          then setRowHidden0 (setData0 (QVariant.str txt) (insertRow0 b1))
          else setData0 (QVariant.str txt) (insertRow0 b1)).m_maxitems = b.m_maxitems := by
        rw [ite_setRowHidden0_maxitems, setData0_insertRow0_maxitems, h1]
      generalize (if isFiltered (setData0 (QVariant.str txt) (insertRow0 b1)) 0 = true
          then setRowHidden0 (setData0 (QVariant.str txt) (insertRow0 b1))
          else setData0 (QVariant.str txt) (insertRow0 b1)) = b3 at h3 ⊢
      have h4 : (if (rowCount b3 : Int) > b3.m_maxitems then removeRow (rowCount b3 - 1) b3
          else b3).m_maxitems = b.m_maxitems := by
        split
        · rw [removeRow_maxitems, h3]
        · exact h3
      generalize (if (rowCount b3 : Int) > b3.m_maxitems then removeRow (rowCount b3 - 1) b3
          else b3) = b4 at h4 ⊢
      split
      · exact h4
      · exact h4

theorem addVariant_maxitems (v : QVariant) (b : ClipboardBrowser) :
    (addVariant v b).2.m_maxitems = b.m_maxitems := by
  cases v with
  | str s => exact add_maxitems s true b
  | image img => exact setData0_insertRow0_maxitems _ b

/-- Restoring a saved stream into a browser without rows: when the rows fit in
the capacity, no text is blank and no text occurs twice, every record lands at
the head without removing or trimming anything. -/
theorem restore_fold (cap : Int) (l : List QVariant) :
    (l.length : Int) ≤ cap →
    (∀ s, QVariant.str s ∈ l → isBlank s = false) →
    l.Pairwise (fun x y => ∀ s, x = QVariant.str s → y ≠ QVariant.str s) →
    ∀ b : ClipboardBrowser, b.m = [] → b.m_maxitems = cap →
      (l.reverse.foldl (fun acc v => (addVariant v acc).2) b).m = l
        ∧ (l.reverse.foldl (fun acc v => (addVariant v acc).2) b).m_maxitems = cap := by
  induction l with
  | nil =>
    intro _ _ _ b hb hc
    exact ⟨hb, hc⟩
  | cons x xs ih =>
    intro hlen hnb hpw b hb hc
    have hlen2 : (xs.length : Int) ≤ cap := by
      simp only [List.length_cons] at hlen
      push_cast at hlen
      omega
    have hpw2 := List.pairwise_cons.mp hpw
    obtain ⟨ihm, ihc⟩ := ih hlen2 (fun s hs => hnb s (List.mem_cons_of_mem _ hs)) hpw2.2 b hb hc
    rw [List.reverse_cons, List.foldl_append]
    simp only [List.foldl_cons, List.foldl_nil]
    generalize (xs.reverse.foldl (fun acc v => (addVariant v acc).2) b) = r at ihm ihc ⊢
    refine ⟨?_, by rw [addVariant_maxitems, ihc]⟩
    cases x with
    | image img =>
      show (setData0 (QVariant.image img) (insertRow0 r)).m = _
      rw [setData0_insertRow0_m, ihm]
    | str s =>
      show (add s true r).2.m = _
      have hs : isBlank s = false := hnb s (List.mem_cons_self _ _)
      have hne : s ≠ "" := by
        intro h
        rw [h] at hs
        exact absurd hs (by decide)
      have hf : findSame s r = xs.length := by
        unfold findSame
        rw [ihm]
        apply List.findIdx_eq_length_of_false
        intro y hy
        cases y with
        | image img2 => simpa [QVariant.toString] using hne
        | str s2 =>
          have := hpw2.1 (QVariant.str s2) hy s rfl
          simp only [QVariant.toString, decide_eq_false_iff_not]
          intro h
          exact this (by rw [h])
      have hi : ¬ (findSame s r < rowCount r ∧ findSame s r = 0) := by
        rw [hf]
        simp only [rowCount, ihm]
        omega
      rw [add_m_of_insert s true r (by simp [hs]) hi, hf, ihm, ihc,
        List.eraseIdx_of_length_le (le_refl _)]
      rw [if_neg]
      simp only [List.length_cons] at hlen
      push_cast at hlen
      omega

/-- C6, as amended. A store whose length is at most the capacity, whose text
items are not blank and in which no text occurs twice (image items are not
restricted) is reconstructed exactly by `saveItems` followed by the restore
loop of `readSettings` run in a browser of the same capacity. -/
theorem restore_save_roundtrip (S b0 : ClipboardBrowser)
    (hmax : b0.m_maxitems = S.m_maxitems)
    (hcap : (rowCount S : Int) ≤ S.m_maxitems)
    (hnb : ∀ s, QVariant.str s ∈ S.m → isBlank s = false)
    (hnd : S.m.Pairwise (fun x y => ∀ s, x = QVariant.str s → y ≠ QVariant.str s)) :
    (restoreItems (saveItems S) b0).m = S.m := by
  unfold restoreItems saveItems
  exact (restore_fold S.m_maxitems S.m hcap hnb hnd (clear b0) rfl hmax).1

theorem restore_save_roundtrip_witness :
    (restoreItems
        (saveItems { mkBrowser 3 emptyClipboard with
          m := [QVariant.str "a", QVariant.image ⟨[1]⟩, QVariant.image ⟨[1]⟩] })
        (mkBrowser 3 emptyClipboard)).m
      = [QVariant.str "a", QVariant.image ⟨[1]⟩, QVariant.image ⟨[1]⟩] := by
  exact restore_save_roundtrip
    { mkBrowser 3 emptyClipboard with
      m := [QVariant.str "a", QVariant.image ⟨[1]⟩, QVariant.image ⟨[1]⟩] }
    (mkBrowser 3 emptyClipboard) rfl (by decide)
    (by
      intro s hs
      simp only [List.mem_cons, QVariant.str.injEq, List.mem_singleton, reduceCtorEq, or_false,
        List.not_mem_nil] at hs
      subst hs
      decide)
    (by simp)

/-- C6, counterexample. Three stores that the restore loop does not
reconstruct: the store holding one empty text (made by `add("", false)`, the
call of the `new` command) is restored empty; a store holding the text "a"
twice (made by `moveToClipboard("a")` twice) is restored with one "a"; and with
capacity 1 the store of the text "a" above an image (made by two image inserts
and a text insert) is restored without the image. -/
theorem restore_save_not_identity :
    (add "" false (mkBrowser 400 emptyClipboard)).2.m = [QVariant.str ""]
      ∧ (restoreItems (saveItems (add "" false (mkBrowser 400 emptyClipboard)).2)
          (mkBrowser 400 emptyClipboard)).m = []
      ∧ (restoreItems
          (saveItems (moveToClipboardText "a" (moveToClipboardText "a" (mkBrowser 400 emptyClipboard))))
          (mkBrowser 400 emptyClipboard)).m = [QVariant.str "a"]
      ∧ (add "a" true (addImage ⟨[2]⟩ (addImage ⟨[1]⟩ (mkBrowser 1 emptyClipboard)).2).2).2.m
          = [QVariant.str "a", QVariant.image ⟨[2]⟩]
      ∧ (restoreItems
          (saveItems (add "a" true (addImage ⟨[2]⟩ (addImage ⟨[1]⟩ (mkBrowser 1 emptyClipboard)).2).2).2)
          (mkBrowser 1 emptyClipboard)).m = [QVariant.str "a"] := by
  decide

theorem text_setText_same (c : QClipboard) (t : String) (mode : Mode) :
    (c.setText t mode).text mode = t := by
  cases mode <;> rfl

theorem text_setText_other (c : QClipboard) (t : String) (mode other : Mode) (h : other ≠ mode) :
    (c.setText t mode).text other = c.text other := by
  cases mode <;> cases other <;> first | rfl | exact absurd rfl h

theorem text_setImage_same (c : QClipboard) (img : QImage) (mode : Mode) :
    (c.setImage img mode).text mode = "" := by
  cases mode <;> rfl

theorem text_setImage_other (c : QClipboard) (img : QImage) (mode other : Mode) (h : other ≠ mode) :
    (c.setImage img mode).text other = c.text other := by
  cases mode <;> cases other <;> first | rfl | exact absurd rfl h

/-- Setting a text on a channel only when it differs leaves the channel with
that text. -/
theorem text_setText_if_same (c : QClipboard) (t : String) (mode : Mode) :
    (if t ≠ c.text mode then c.setText t mode else c).text mode = t := by
  split
  · exact text_setText_same c t mode
  · rename_i h
    exact (not_not.mp h).symm

theorem text_setText_if_other (c : QClipboard) (t : String) (mode other : Mode) (h : other ≠ mode) :
    (if t ≠ c.text mode then c.setText t mode else c).text other = c.text other := by
  split
  · exact text_setText_other c t mode other h
  · rfl

/-- After a push from a non-empty store, both channels of the clipboard read
as the text kept in `m_lastSelection`. -/
theorem syncListToClipboard_text (b : ClipboardBrowser) (h : 0 < rowCount b) (mode : Mode) :
    (syncListToClipboard b).clip.text mode = (syncListToClipboard b).m_lastSelection := by
  unfold syncListToClipboard stopMonitoring startMonitoring
  rcases hb : b.m with _ | ⟨v, rest⟩
  · simp [rowCount, hb] at h
  · cases v with
    | image img =>
      simp only []
      cases mode
      · rw [text_setImage_other _ _ _ _ (by decide), text_setImage_same]
      · rw [text_setImage_same]
    | str text =>
      simp only []
      cases mode
      · rw [text_setText_if_other _ _ _ _ (by decide), text_setText_if_same]
      · rw [text_setText_if_same]

/-- C7. After `sync(true)` on a non-empty store (head a text or an image), the
next poll tick `checkClipboard` finds both channels equal to `m_lastSelection`
and returns the browser unchanged: nothing is inserted and nothing is
reordered. -/
theorem checkClipboard_after_push (b : ClipboardBrowser) (mode : Mode) (h : 0 < rowCount b) :
    checkClipboard (sync true mode b) = sync true mode b := by
  have h1 := syncListToClipboard_text b h Mode.Clipboard
  have h2 := syncListToClipboard_text b h Mode.Selection
  simp only [sync, if_true, checkClipboard]
  rw [if_neg (by simp [h1]), if_neg (by simp [h2])]

theorem checkClipboard_after_push_witness :
    checkClipboard (sync true Mode.Clipboard
        { mkBrowser 400 emptyClipboard with m := [QVariant.image ⟨[5]⟩, QVariant.str "x"] })
      = sync true Mode.Clipboard
        { mkBrowser 400 emptyClipboard with m := [QVariant.image ⟨[5]⟩, QVariant.str "x"] }
    ∧ (checkClipboard (sync true Mode.Clipboard
        { mkBrowser 400 emptyClipboard with m := [QVariant.str "x", QVariant.str "y"] })).m
      = [QVariant.str "x", QVariant.str "y"] := by
  refine ⟨checkClipboard_after_push _ Mode.Clipboard (by decide), ?_⟩
  rw [checkClipboard_after_push _ Mode.Clipboard (by decide)]
  decide

/-- C1, at a concrete store. -/
theorem add_head_is_noop_witness :
    (add "x" true { mkBrowser 400 emptyClipboard with m := [QVariant.str "x", QVariant.str "y"] }).2.m
      = [QVariant.str "x", QVariant.str "y"] := by
  rw [add_head_is_noop
    { mkBrowser 400 emptyClipboard with m := [QVariant.str "x", QVariant.str "y"] } "x" true
    (by decide) (by decide)]

/-! ### The command handler -/

theorem findArgEscapes_none (cs : List Char) (h : '%' ∉ cs) (fuel : Nat) :
    findArgEscapes fuel cs = none := by
  induction cs generalizing fuel with
  | nil => cases fuel <;> rfl
  | cons c rest ih =>
    cases fuel with
    | zero => rfl
    | succ n =>
      have hc : c ≠ '%' := fun e => h (by simp [e])
      have hr : '%' ∉ rest := fun e => h (List.mem_cons_of_mem _ e)
      simp only [findArgEscapes, if_neg hc]
      exact ih hr n

/-- A string without a percent sign has no place marker: `arg` returns it. -/
theorem arg_no_percent (s a : String) (h : '%' ∉ s.data) : arg s a = s := by
  unfold arg
  rw [findArgEscapes_none s.data h]

/-- The default format: `QString("%1\n").arg(a)` is `a` followed by a newline. -/
theorem arg_default_format (a : String) : arg "%1\n" a = a ++ "\n" := by
  cases a with
  | mk cs => rfl

/-- C8, evaluation at the failing input. A well-formed `action row cmd sep`
runs the action and returns: the handler sends no message to the client, so
there is no terminator (for every browser and whatever the action produces). -/
theorem action_sends_no_terminator (actionItems : List String) (c : ClipboardBrowser) :
    handleMessage actionItems ["action", "0", "cmd", "sep"] c
        = some (addItems actionItems (checkClipboard c), [Event.action 0 "cmd" "sep"])
      ∧ (handleMessage actionItems ["action", "0", "cmd", "sep"] c).map
          (fun r => sentMessages r.2) = some [] := by
  have h : handleMessage actionItems ["action", "0", "cmd", "sep"] c
      = some (addItems actionItems (checkClipboard c), [Event.action 0 "cmd" "sep"]) := by
    have h0 : toInt "0" = some 0 := by decide
    simp [handleMessage, actionCommand, h0]
  rw [h]
  exact ⟨rfl, rfl⟩

/-- C9, as amended. The commands `length`, `count` and `size` send exactly one
reply before the terminator: the decimal representation of the number of items
the store has after the clipboard check that starts every command, followed
by one newline. -/
theorem length_reply (actionItems args : List String) (c : ClipboardBrowser) (name : String)
    (h : name = "length" ∨ name = "count" ∨ name = "size") :
    handleMessage actionItems (name :: args) c
      = some (checkClipboard c,
          [Event.sendMessage (toString (rowCount (checkClipboard c)) ++ "\n"),
           Event.sendMessage ""]) := by
  have hrepr : argInt "%1\n" (length (checkClipboard c))
      = toString (rowCount (checkClipboard c)) ++ "\n" := by
    unfold argInt
    rw [arg_default_format]
    rfl
  rcases h with h | h | h <;> subst h <;> simp [handleMessage, hrepr]

theorem length_reply_witness :
    handleMessage [] ["count"]
        { mkBrowser 400 emptyClipboard with m := [QVariant.str "hello world"] }
      = some (checkClipboard { mkBrowser 400 emptyClipboard with m := [QVariant.str "hello world"] },
          [Event.sendMessage "1\n", Event.sendMessage ""]) := by
  rw [length_reply [] [] _ "count" (Or.inr (Or.inl rfl))]
  rfl

/-- C9, counterexample. `add hello world` on the empty store leaves the store
with the single item "hello world", and the `length` command that follows
replies "1" followed by a newline, not the bare string "1". -/
theorem length_reply_is_not_bare_number :
    (handleMessage [] ["add", "hello", "world"] (mkBrowser 400 emptyClipboard)).map
        (fun r => (r.1.m, sentMessages r.2)) = some ([QVariant.str "hello world"], [""])
      ∧ ((handleMessage [] ["add", "hello", "world"] (mkBrowser 400 emptyClipboard)).bind
          (fun r => (handleMessage [] ["length"] r.1).map (fun r2 => sentMessages r2.2)))
        = some ["1\n", ""]
      ∧ ((handleMessage [] ["add", "hello", "world"] (mkBrowser 400 emptyClipboard)).bind
          (fun r => (handleMessage [] ["length"] r.1).map (fun r2 => sentMessages r2.2)))
        ≠ some ["1", ""] := by
  decide

theorem itemText_of_empty (b : ClipboardBrowser) (h : rowCount b = 0) (i : Int) (hi : 0 ≤ i) :
    itemText b i = "" := by
  unfold itemText
  rw [if_pos (by omega)]

/-- C11, as amended. The `list` command with no arguments sends `itemText(0)`
of the store it reads, which is the store after the clipboard check that
starts every command, then the terminator, and shows no error. When that store
is empty the reply is the empty string, because `itemText(0)` is the empty
string whenever the store has no item at index 0. -/
theorem list_on_empty_store (actionItems : List String) (c b : ClipboardBrowser)
    (h : rowCount (checkClipboard c) = 0) (hb : rowCount b = 0) :
    handleMessage actionItems ["list"] c
        = some (checkClipboard c, [Event.sendMessage "", Event.sendMessage ""])
      ∧ itemText b 0 = "" := by
  refine ⟨?_, itemText_of_empty b hb 0 (le_refl _)⟩
  simp [handleMessage, itemText_of_empty (checkClipboard c) h 0 (le_refl _)]

theorem list_on_empty_store_witness :
    (handleMessage [] ["list"] (mkBrowser 400 emptyClipboard)
        = some (checkClipboard (mkBrowser 400 emptyClipboard),
            [Event.sendMessage "", Event.sendMessage ""])
      ∧ itemText (mkBrowser 400 emptyClipboard) 0 = "")
    ∧ (handleMessage [] ["list"]
          (mkBrowser 400
            { clipboard := QMimeData.text " ", selection := QMimeData.noFormats, writes := [] })
        = some (checkClipboard (mkBrowser 400
              { clipboard := QMimeData.text " ", selection := QMimeData.noFormats, writes := [] }),
            [Event.sendMessage "", Event.sendMessage ""])
      ∧ itemText (mkBrowser 400 emptyClipboard) 0 = "") :=
  ⟨list_on_empty_store [] (mkBrowser 400 emptyClipboard) (mkBrowser 400 emptyClipboard)
    (by decide) (by decide),
   list_on_empty_store []
    (mkBrowser 400
      { clipboard := QMimeData.text " ", selection := QMimeData.noFormats, writes := [] })
    (mkBrowser 400 emptyClipboard) (by decide) (by decide)⟩

/-- C11, counterexample. On the empty store whose clipboard holds the text
"foo", not seen yet, the `list` command with no arguments replies "foo": the
clipboard check that starts the command adds "foo" to the store before the
`list` branch reads row 0. -/
theorem list_on_empty_store_with_new_clipboard :
    rowCount (mkBrowser 400
        { clipboard := QMimeData.text "foo", selection := QMimeData.noFormats, writes := [] }) = 0
      ∧ (handleMessage [] ["list"]
          (mkBrowser 400
            { clipboard := QMimeData.text "foo", selection := QMimeData.noFormats,
              writes := [] })).map
          (fun r => (r.1.m, r.2))
        = some ([QVariant.str "foo"], [Event.sendMessage "foo", Event.sendMessage ""]) := by
  decide

/-- The row argument: 0 without an argument or when the argument is not an
integer, the integer otherwise. -/
theorem rowArgument_spec (a : String) (rest : List String) (n : Int) :
    rowArgument [] = 0
      ∧ (toInt a = none → rowArgument (a :: rest) = 0)
      ∧ (toInt a = some n → rowArgument (a :: rest) = n) := by
  refine ⟨rfl, ?_, ?_⟩ <;> intro h <;> simp [rowArgument, h]

/-- C12, as amended. For every `show [title] [row]` command the handler shows
one tray message with the given title and then sends the terminator. With
`text` the text of the item at the row (row 0 when the argument is absent or
not an integer), read from the store as it is after the clipboard check that
starts every command, and with characters counted as `QString` counts them,
in UTF-16 code units: the message is `text` when it has at most 500
characters, and otherwise the prefix of `text` of length 500 followed by the
marker "\n\n\n< --- CROPPED --- >". -/
theorem show_message (actionItems args : List String) (c : ClipboardBrowser) :
    ∃ msg : List Nat,
      handleMessage actionItems ("show" :: args) c
          = some (checkClipboard c,
              [Event.showMessage (args.head?.getD "") msg, Event.sendMessage ""])
        ∧ ((utf16 (itemText (checkClipboard c) (rowArgument args.tail))).length ≤ 500 →
            msg = utf16 (itemText (checkClipboard c) (rowArgument args.tail)))
        ∧ (500 < (utf16 (itemText (checkClipboard c) (rowArgument args.tail))).length →
            ∃ p rest : List Nat,
              utf16 (itemText (checkClipboard c) (rowArgument args.tail)) = p ++ rest
                ∧ p.length = 500
                ∧ msg = p ++ utf16 "\n\n\n< --- CROPPED --- >") := by
  by_cases hlen : (utf16 (itemText (checkClipboard c) (rowArgument args.tail))).length > 500
  · refine ⟨(utf16 (itemText (checkClipboard c) (rowArgument args.tail))).take 500
        ++ utf16 "\n\n\n< --- CROPPED --- >", ?_, ?_, ?_⟩
    · simp only [handleMessage]
      simp [hlen]
    · intro h
      omega
    · intro _
      refine ⟨(utf16 (itemText (checkClipboard c) (rowArgument args.tail))).take 500,
        (utf16 (itemText (checkClipboard c) (rowArgument args.tail))).drop 500,
        (List.take_append_drop _ _).symm, ?_, rfl⟩
      rw [List.length_take]
      omega
  · refine ⟨utf16 (itemText (checkClipboard c) (rowArgument args.tail)), ?_, ?_, ?_⟩
    · simp only [handleMessage]
      simp [hlen]
    · intro _
      rfl
    · intro h
      omega

set_option maxRecDepth 40000 in
theorem show_message_witness :
    (∃ msg : List Nat,
      handleMessage [] ["show", "title", "1"]
          { mkBrowser 400 emptyClipboard with m := [QVariant.str "x", QVariant.str "y"] }
          = some (checkClipboard
                { mkBrowser 400 emptyClipboard with m := [QVariant.str "x", QVariant.str "y"] },
              [Event.showMessage "title" msg, Event.sendMessage ""])
        ∧ msg = utf16 "y")
      ∧ (handleMessage [] ["show", "title"]
          { mkBrowser 400 emptyClipboard with
            m := [QVariant.str (String.mk (List.replicate 501 'x'))] }).map (fun r => r.2)
        = some [Event.showMessage "title"
            (List.replicate 500 120 ++ utf16 "\n\n\n< --- CROPPED --- >"),
          Event.sendMessage ""]
      ∧ (handleMessage [] ["show", "title"]
          { mkBrowser 400 emptyClipboard with
            m := [QVariant.str (String.mk (List.replicate 251 (Char.ofNat 0x1F600)))] }).map
            (fun r => r.2)
        = some [Event.showMessage "title"
            ((List.replicate 250 [0xD83D, 0xDE00]).flatten ++ utf16 "\n\n\n< --- CROPPED --- >"),
          Event.sendMessage ""] := by
  refine ⟨?_, ?_, ?_⟩
  · obtain ⟨msg, h1, h2, _⟩ := show_message [] ["title", "1"]
      { mkBrowser 400 emptyClipboard with m := [QVariant.str "x", QVariant.str "y"] }
    exact ⟨msg, h1, h2 (by decide)⟩
  · decide
  · decide

/-- C12, counterexample. On the store x, y whose clipboard holds the text
"foo", not seen yet, `show t 0` shows "foo" and not "x", the text row 0 had
when the command arrived: the clipboard check that starts the command puts
"foo" at row 0 first. -/
theorem show_message_reads_after_clipboard_check :
    itemText
        { mkBrowser 400
            { clipboard := QMimeData.text "foo", selection := QMimeData.noFormats, writes := [] }
          with m := [QVariant.str "x", QVariant.str "y"] } 0 = "x"
      ∧ (handleMessage [] ["show", "t", "0"]
          { mkBrowser 400
              { clipboard := QMimeData.text "foo", selection := QMimeData.noFormats,
                writes := [] }
            with m := [QVariant.str "x", QVariant.str "y"] }).map (fun r => r.2)
        = some [Event.showMessage "t" (utf16 "foo"), Event.sendMessage ""]
      ∧ utf16 "foo" ≠ utf16 "x" := by
  decide

/-- C13. For the `action` command with at least one argument `a`: when `a` is
an integer it is the row and the command and the separator follow it,
otherwise the row is 0 and `a` is the command. The handler shows the syntax
error (and then sends the terminator) exactly when the command is missing or
more than the command and a separator are given; in every other case it runs
the action with that row, the command and the separator, the newline when none
is given, adds the items the action produces, and shows no error. -/
theorem action_arguments (actionItems : List String) (c : ClipboardBrowser)
    (a : String) (rest : List String) :
    ((if (toInt a).isSome then rest else a :: rest) = []
        ∨ 2 < (if (toInt a).isSome then rest else a :: rest).length →
      handleMessage actionItems ("action" :: a :: rest) c
        = some (checkClipboard c,
            [Event.showError "Bad \"action\" command syntax!\naction [row] cmd [sep]",
             Event.sendMessage ""]))
    ∧ (¬ ((if (toInt a).isSome then rest else a :: rest) = []
        ∨ 2 < (if (toInt a).isSome then rest else a :: rest).length) →
      handleMessage actionItems ("action" :: a :: rest) c
        = some (addItems actionItems (checkClipboard c),
            [Event.action ((toInt a).getD 0)
              ((if (toInt a).isSome then rest else a :: rest).head?.getD "")
              (((if (toInt a).isSome then rest else a :: rest).get? 1).getD "\n")])) := by
  cases hi : toInt a with
  | none =>
    rcases rest with _ | ⟨s1, _ | ⟨s2, r2⟩⟩ <;>
      simp [handleMessage, actionCommand, hi]
  | some row =>
    rcases rest with _ | ⟨s1, _ | ⟨s2, _ | ⟨s3, r3⟩⟩⟩ <;>
      simp [handleMessage, actionCommand, hi]

theorem action_arguments_witness :
    handleMessage [] ["action", "2"] (mkBrowser 400 emptyClipboard)
        = some (checkClipboard (mkBrowser 400 emptyClipboard),
            [Event.showError "Bad \"action\" command syntax!\naction [row] cmd [sep]",
             Event.sendMessage ""])
      ∧ handleMessage [] ["action", "ls", ";", "x"] (mkBrowser 400 emptyClipboard)
        = some (checkClipboard (mkBrowser 400 emptyClipboard),
            [Event.showError "Bad \"action\" command syntax!\naction [row] cmd [sep]",
             Event.sendMessage ""])
      ∧ handleMessage [] ["action", "ls"] (mkBrowser 400 emptyClipboard)
        = some (addItems [] (checkClipboard (mkBrowser 400 emptyClipboard)),
            [Event.action 0 "ls" "\n"])
      ∧ handleMessage [] ["action", "2", "ls", ";"] (mkBrowser 400 emptyClipboard)
        = some (addItems [] (checkClipboard (mkBrowser 400 emptyClipboard)),
            [Event.action 2 "ls" ";"]) :=
  ⟨(action_arguments [] (mkBrowser 400 emptyClipboard) "2" []).1 (by decide),
   (action_arguments [] (mkBrowser 400 emptyClipboard) "ls" [";", "x"]).1 (by decide),
   (action_arguments [] (mkBrowser 400 emptyClipboard) "ls" []).2 (by decide),
   (action_arguments [] (mkBrowser 400 emptyClipboard) "2" ["ls", ";"]).2 (by decide)⟩

/-! ### `itemModified` -/

/-- A text that is not blank is the head of the store after `add`, when the
capacity is positive. -/
theorem add_head_of_not_blank (t : String) (ie : Bool) (b : ClipboardBrowser)
    (hnb : isBlank t = false) (hpos : 0 < b.m_maxitems) :
    (add t ie b).2.m.head? = some (QVariant.str t) := by
  have hbl : (ie && isBlank t) = false := by simp [hnb]
  have hne : t ≠ "" := by
    intro h
    rw [h] at hnb
    exact absurd hnb (by decide)
  by_cases hi : findSame t b < rowCount b ∧ findSame t b = 0
  · have hb : (add t ie b).2 = b := by
      unfold add
      rw [if_neg (by simp [hbl])]
      simp only []
      rw [if_pos hi]
    rw [hb]
    have hlen : 0 < b.m.length := by
      have := hi.1
      simp only [rowCount] at this
      omega
    have hp := (List.findIdx_eq hlen).mp hi.2
    rcases hm : b.m with _ | ⟨v, rest⟩
    · rw [hm] at hlen
      exact absurd hlen (by simp)
    · have h0 : b.m[0] = v := by simp [hm]
      rw [h0] at hp
      cases v with
      | image img => exact absurd (by simpa [QVariant.toString] using hp.1) hne
      | str s2 =>
        have : t = s2 := by simpa [QVariant.toString] using hp.1
        simp [this]
  · rw [add_m_of_insert t ie b hbl hi]
    split
    · rename_i hgt
      rcases hl : b.m.eraseIdx (findSame t b) with _ | ⟨x, l⟩
      · rw [hl] at hgt
        simp only [List.length_nil] at hgt
        omega
      · simp [List.eraseIdx_cons_succ]
    · rfl

/-- C14, as amended. With `k` the first row whose text hashes to `h` (the
number of rows when there is none, so that nothing is removed),
`itemModified(h, s)` removes row `k`; a blank `s` (empty or white space only)
inserts nothing; a `s` that is not blank is then inserted with `add(s)`, its
dedup and capacity rules included, and is the item at index 0 of the
resulting store when the capacity is positive. -/
theorem itemModified_spec (hashOf : String → Nat) (h : Nat) (s : String) (b : ClipboardBrowser) :
    (isBlank s = true →
        (itemModified hashOf h s b).m
          = b.m.eraseIdx (b.m.findIdx (fun v => decide (hashOf v.toString = h))))
      ∧ (isBlank s = false →
        ∃ b1 : ClipboardBrowser,
          b1.m = b.m.eraseIdx (b.m.findIdx (fun v => decide (hashOf v.toString = h)))
            ∧ b1.m_maxitems = b.m_maxitems
            ∧ (itemModified hashOf h s b).m = (add s true b1).2.m)
      ∧ (isBlank s = false → 0 < b.m_maxitems →
        (itemModified hashOf h s b).m.head? = some (QVariant.str s)) := by
  have hb1 : (if findHash hashOf h b < rowCount b then removeRow (findHash hashOf h b) b else b)
      = removeRow (findHash hashOf h b) b := by
    split
    · rfl
    · rename_i hlt
      unfold removeRow
      rw [if_neg (by simpa [rowCount] using hlt)]
  have hm : (itemModified hashOf h s b).m
      = if s = "" then (removeRow (findHash hashOf h b) b).m
        else (add s true (removeRow (findHash hashOf h b) b)).2.m := by
    unfold itemModified
    simp only [hb1]
    by_cases hs : s = ""
    · simp [hs]
    · simp [hs, sync, syncListToClipboard_m]
  refine ⟨?_, ?_, ?_⟩
  · intro hbl
    rw [hm]
    split
    · exact removeRow_m _ _
    · have : (add s true (removeRow (findHash hashOf h b) b)).2 = removeRow (findHash hashOf h b) b := by
        unfold add
        rw [if_pos (by simp [hbl])]
      rw [this]
      exact removeRow_m _ _
  · intro hbl
    refine ⟨removeRow (findHash hashOf h b) b, removeRow_m _ _, removeRow_maxitems _ _, ?_⟩
    rw [hm, if_neg]
    intro hs
    rw [hs] at hbl
    exact absurd hbl (by decide)
  · intro hbl hpos
    rw [hm, if_neg]
    · exact add_head_of_not_blank s true _ hbl (by rw [removeRow_maxitems]; exact hpos)
    · intro hs
      rw [hs] at hbl
      exact absurd hbl (by decide)

theorem itemModified_spec_witness :
    (itemModified qHash (qHash "b") "c"
        { mkBrowser 400 emptyClipboard with
          m := [QVariant.str "a", QVariant.str "b", QVariant.str "c"] }).m.head?
      = some (QVariant.str "c")
    ∧ (itemModified qHash (qHash "b") "c"
        { mkBrowser 400 emptyClipboard with
          m := [QVariant.str "a", QVariant.str "b", QVariant.str "c"] }).m
      = [QVariant.str "c", QVariant.str "a"] := by
  refine ⟨(itemModified_spec qHash (qHash "b") "c"
    { mkBrowser 400 emptyClipboard with
      m := [QVariant.str "a", QVariant.str "b", QVariant.str "c"] }).2.2 (by decide) (by decide), ?_⟩
  decide

/-- C14, counterexample. On the store holding "a", `itemModified(qHash("a"), " ")`
with the non-empty text " " removes "a" and leaves the store empty: the text,
being blank, is ignored by `add` and is not at index 0. With capacity 0 the
text "x" is not at index 0 either: it is trimmed as soon as it is inserted. -/
theorem itemModified_blank_not_inserted :
    (" " : String) ≠ ""
      ∧ (itemModified qHash (qHash "a") " "
          { mkBrowser 400 emptyClipboard with m := [QVariant.str "a"] }).m = []
      ∧ (itemModified qHash (qHash "a") "x"
          { mkBrowser 0 emptyClipboard with m := [] }).m = [] := by
  decide

/-! ### `filterItems`, polling and the `new` command -/

/-- When no row is hidden, a filter string that is a number `n` inside the
store makes row `n` the current row and the selection, clears the search
pattern and leaves the store as it is. -/
theorem filterItems_number_of_nothing_hidden (regExp : String → String → Bool) (str : String)
    (n : Nat) (b : ClipboardBrowser) (hn : toInt str = some (n : Int)) (hlt : n < rowCount b)
    (hh : b.hidden = []) :
    (filterItems regExp str b).m = b.m
      ∧ (filterItems regExp str b).hidden = []
      ∧ (filterItems regExp str b).m_re.isNone = true
      ∧ (filterItems regExp str b).current = (n : Int)
      ∧ (filterItems regExp str b).selected = [n] := by
  have hne : str ≠ "" := by
    intro h
    have h0 : toInt "" = none := by decide
    rw [h, h0] at hn
    exact absurd hn (by simp)
  have hlt2 : n < b.m.length := hlt
  have hrc : rowCount (setSearch none b) = b.m.length := rfl
  have hrow : getRowNumber (setSearch none b) (n : Int) false = (n : Int) := by
    simp only [getRowNumber, hrc]
    rw [if_neg (by omega), if_neg (by omega), if_neg (by omega)]
  have hvis : isRowHidden (setSearch none b) (n : Int) = false := by
    simp [isRowHidden, setSearch, hh]
  have hloop : ∀ dir : Int, setCurrentLoop (setSearch none b) dir false (n : Int)
      (b.m.length + 1) (n : Int) = (n : Int) := by
    intro dir
    simp [setCurrentLoop, hvis]
  unfold filterItems
  rw [if_neg hne, hn]
  simp only [setCurrent, hrow, hrc, hloop]
  simp [hlt2, setSearch, hh]

/-- C15, evaluation at the failing input. On the store a, b, c, d the pattern
"a" hides rows 1, 2 and 3. The filter string "2", a number inside the store,
then clears the search pattern of the model and leaves the store alone, but
rows 1, 2 and 3 are still hidden and the current row is 3, not 2; the empty
filter string does show every row again. -/
theorem filterItems_number_keeps_rows_hidden :
    (filterItems regExpLetterA "a" { mkBrowser 400 emptyClipboard with
        m := [QVariant.str "a", QVariant.str "b", QVariant.str "c", QVariant.str "d"] }).hidden
      = [3, 2, 1]
    ∧ toInt "2" = some 2
    ∧ (filterItems regExpLetterA "2" (filterItems regExpLetterA "a"
        { mkBrowser 400 emptyClipboard with
          m := [QVariant.str "a", QVariant.str "b", QVariant.str "c", QVariant.str "d"] })).m
      = [QVariant.str "a", QVariant.str "b", QVariant.str "c", QVariant.str "d"]
    ∧ (filterItems regExpLetterA "2" (filterItems regExpLetterA "a"
        { mkBrowser 400 emptyClipboard with
          m := [QVariant.str "a", QVariant.str "b", QVariant.str "c", QVariant.str "d"] })).m_re.isNone
      = true
    ∧ (filterItems regExpLetterA "2" (filterItems regExpLetterA "a"
        { mkBrowser 400 emptyClipboard with
          m := [QVariant.str "a", QVariant.str "b", QVariant.str "c", QVariant.str "d"] })).hidden
      = [3, 2, 1]
    ∧ (filterItems regExpLetterA "2" (filterItems regExpLetterA "a"
        { mkBrowser 400 emptyClipboard with
          m := [QVariant.str "a", QVariant.str "b", QVariant.str "c", QVariant.str "d"] })).current
      = 3
    ∧ (filterItems regExpLetterA "" (filterItems regExpLetterA "a"
        { mkBrowser 400 emptyClipboard with
          m := [QVariant.str "a", QVariant.str "b", QVariant.str "c", QVariant.str "d"] })).hidden
      = [] := by
  decide

/-- The polling timer after `sync`: it runs, except after a push on an empty
store, where `sync` returns right after `stopMonitoring()`. -/
theorem sync_timer (list_to_clipboard : Bool) (mode : Mode) (b : ClipboardBrowser) :
    (sync list_to_clipboard mode b).timer = !(list_to_clipboard && b.m.isEmpty) := by
  cases list_to_clipboard with
  | true =>
    simp only [sync, if_true, syncListToClipboard, stopMonitoring, startMonitoring]
    rcases hb : b.m with _ | ⟨v, rest⟩
    · simp
    · cases v <;> simp
  | false =>
    simp only [sync, Bool.false_eq_true, if_false, Bool.false_and, Bool.not_false]
    split
    · rfl
    · split <;> try rfl
      split <;> rfl

/-- C16, evaluation at the failing input. A push on the empty store returns
with the polling timer stopped; so does `remove()` when it removes the last
remaining item, alone or through the `remove 0` command. -/
theorem sync_on_empty_store_stops_polling :
    (mkBrowser 400 emptyClipboard).timer = true
      ∧ (sync true Mode.Clipboard (mkBrowser 400 emptyClipboard)).timer = false
      ∧ (remove (setCurrent 0 false false
          { mkBrowser 400 emptyClipboard with m := [QVariant.str "a"] })).m = []
      ∧ (remove (setCurrent 0 false false
          { mkBrowser 400 emptyClipboard with m := [QVariant.str "a"] })).timer = false
      ∧ (handleMessage [] ["remove", "0"]
          { mkBrowser 400 emptyClipboard with m := [QVariant.str "a"] }).map
            (fun r => (r.1.m, r.1.timer, sentMessages r.2)) = some ([], false, [""]) := by
  decide

/-- C18, evaluation at the failing input. `new` followed by exactly one token,
and `new` alone, read `args[1]` outside the argument list, for every browser;
with two tokens the new head item is made from the second one. -/
theorem new_reads_outside_args (actionItems : List String) (c : ClipboardBrowser) (txt : String) :
    handleMessage actionItems ["new", txt] c = none
      ∧ handleMessage actionItems ["new"] c = none
      ∧ (handleMessage [] ["new", "first", "second"] (mkBrowser 400 emptyClipboard)).map
          (fun r => r.1.m) = some [QVariant.str "second"] := by
  refine ⟨?_, ?_, ?_⟩
  · simp [handleMessage]
  · simp [handleMessage]
  · decide

/-! ### The writes of the pull -/

theorem setText_writes (c : QClipboard) (t : String) (mode : Mode) :
    (c.setText t mode).writes = c.writes ++ [(mode, QMimeData.text t)] := by
  cases mode <;> rfl

theorem setTextIfDifferent_writes (c : QClipboard) (t : String) (mode : Mode) :
    (setTextIfDifferent c t mode).writes
      = c.writes ++ (if t ≠ c.text mode then [(mode, QMimeData.text t)] else []) := by
  unfold setTextIfDifferent
  split
  · exact setText_writes c t mode
  · simp

theorem setTextIfDifferent_text_same (c : QClipboard) (t : String) (mode : Mode) :
    (setTextIfDifferent c t mode).text mode = t :=
  text_setText_if_same c t mode

theorem setTextIfDifferent_text_other (c : QClipboard) (t : String) (mode other : Mode)
    (h : other ≠ mode) : (setTextIfDifferent c t mode).text other = c.text other :=
  text_setText_if_other c t mode other h

theorem removeRow_clip (i : Nat) (b : ClipboardBrowser) : (removeRow i b).clip = b.clip := by
  unfold removeRow
  split <;> rfl

theorem setRowHidden0_clip (b : ClipboardBrowser) : (setRowHidden0 b).clip = b.clip := by
  unfold setRowHidden0
  split <;> rfl

/-- Setting the text of the new row 0 pushes it: each channel is written when
its text differs. -/
theorem setData0_insertRow0_clip (t : String) (b : ClipboardBrowser) :
    (setData0 (QVariant.str t) (insertRow0 b)).clip
      = setTextIfDifferent (setTextIfDifferent b.clip t Mode.Clipboard) t Mode.Selection := by
  simp [setData0, insertRow0, dataChanged, syncListToClipboard, stopMonitoring, startMonitoring,
    setTextIfDifferent]

/-- The clipboard after `add`: untouched when the text is ignored or is the
head already, and the push of the text otherwise. -/
theorem add_clip (t : String) (ie : Bool) (b : ClipboardBrowser) :
    (add t ie b).2.clip = b.clip
      ∨ (add t ie b).2.clip
        = setTextIfDifferent (setTextIfDifferent b.clip t Mode.Clipboard) t Mode.Selection := by
  unfold add
  split
  · exact Or.inl rfl
  · simp only []
    split
    · exact Or.inl rfl
    · right
      have h1 : (if findSame t b < rowCount b then removeRow (findSame t b) b else b).clip
          = b.clip := by
        split
        · exact removeRow_clip _ _
        · rfl
      generalize (if findSame t b < rowCount b then removeRow (findSame t b) b else b) = b1 at h1 ⊢
      have h2 := setData0_insertRow0_clip t b1
      rw [h1] at h2
      generalize setData0 (QVariant.str t) (insertRow0 b1) = b2 at h2 ⊢
      have h3 : (if isFiltered b2 0 = true then setRowHidden0 b2 else b2).clip = b2.clip := by
        split
        · exact setRowHidden0_clip _
        · rfl
      generalize (if isFiltered b2 0 = true then setRowHidden0 b2 else b2) = b3 at h3 ⊢
      have h4 : (if (rowCount b3 : Int) > b3.m_maxitems then removeRow (rowCount b3 - 1) b3
          else b3).clip = b3.clip := by
        split
        · exact removeRow_clip _ _
        · rfl
      generalize (if (rowCount b3 : Int) > b3.m_maxitems then removeRow (rowCount b3 - 1) b3
          else b3) = b4 at h4 ⊢
      have h5 : (if (!b4.timer_save) = true then { b4 with timer_save := true } else b4).clip
          = b4.clip := by
        split <;> rfl
      rw [h5, h4, h3, h2]

/-- The last step of the pull on a clipboard `c1`: the text is set on the
clipboard channel, and on the selection channel when it differs there. -/
theorem pull_write_back (c0 c1 : QClipboard) (t : String)
    (h : c1 = c0 ∨ c1 = setTextIfDifferent (setTextIfDifferent c0 t Mode.Clipboard) t Mode.Selection) :
    (setTextIfDifferent (c1.setText t Mode.Clipboard) t Mode.Selection).text Mode.Clipboard = t
      ∧ (setTextIfDifferent (c1.setText t Mode.Clipboard) t Mode.Selection).text Mode.Selection = t
      ∧ ∃ ws : List (Mode × QMimeData),
          (setTextIfDifferent (c1.setText t Mode.Clipboard) t Mode.Selection).writes = c0.writes ++ ws
            ∧ (Mode.Clipboard, QMimeData.text t) ∈ ws
            ∧ (∀ w ∈ ws, w.2 = QMimeData.text t)
            ∧ (c0.text Mode.Selection = t → ∀ w ∈ ws, w.1 ≠ Mode.Selection) := by
  refine ⟨?_, setTextIfDifferent_text_same _ _ _, ?_⟩
  · rw [setTextIfDifferent_text_other _ _ _ _ (by decide), text_setText_same]
  · have hw : (setTextIfDifferent (c1.setText t Mode.Clipboard) t Mode.Selection).writes
        = c1.writes ++ [(Mode.Clipboard, QMimeData.text t)]
          ++ (if t ≠ c1.text Mode.Selection then [(Mode.Selection, QMimeData.text t)] else []) := by
      rw [setTextIfDifferent_writes, setText_writes, text_setText_other _ _ _ _ (by decide)]
    rcases h with h | h
    · subst h
      refine ⟨[(Mode.Clipboard, QMimeData.text t)]
        ++ (if t ≠ c1.text Mode.Selection then [(Mode.Selection, QMimeData.text t)] else []),
        by rw [hw, List.append_assoc], by simp, ?_, ?_⟩
      · intro w hwm
        split at hwm <;> simp at hwm <;> rcases hwm with rfl | rfl <;> rfl
      · intro hsel w hwm
        have hB : (if t ≠ c1.text Mode.Selection then [(Mode.Selection, QMimeData.text t)] else [])
            = [] := if_neg (by simp [hsel])
        rw [hB] at hwm
        simp at hwm
        subst hwm
        simp
    · have hs : c1.text Mode.Selection = t := by
        rw [h]
        exact setTextIfDifferent_text_same _ _ _
      have hc1 : c1.writes = c0.writes
          ++ (if t ≠ c0.text Mode.Clipboard then [(Mode.Clipboard, QMimeData.text t)] else [])
          ++ (if t ≠ c0.text Mode.Selection then [(Mode.Selection, QMimeData.text t)] else []) := by
        rw [h, setTextIfDifferent_writes, setTextIfDifferent_writes,
          setTextIfDifferent_text_other _ _ _ _ (by decide)]
      have hB1 : (if t ≠ c1.text Mode.Selection then [(Mode.Selection, QMimeData.text t)] else [])
          = [] := if_neg (by simp [hs])
      refine ⟨(if t ≠ c0.text Mode.Clipboard then [(Mode.Clipboard, QMimeData.text t)] else [])
        ++ (if t ≠ c0.text Mode.Selection then [(Mode.Selection, QMimeData.text t)] else [])
        ++ [(Mode.Clipboard, QMimeData.text t)], ?_, by simp, ?_, ?_⟩
      · rw [hw, hB1, hc1]
        simp
      · intro w hwm
        simp only [List.mem_append, List.mem_singleton] at hwm
        rcases hwm with (hwm | hwm) | hwm
        · split at hwm <;> simp at hwm
          subst hwm
          rfl
        · split at hwm <;> simp at hwm
          subst hwm
          rfl
        · subst hwm
          rfl
      · intro hsel w hwm
        have hB : (if t ≠ c0.text Mode.Selection then [(Mode.Selection, QMimeData.text t)] else [])
            = [] := if_neg (by simp [hsel])
        rw [hB] at hwm
        simp only [List.append_nil, List.mem_append, List.mem_singleton] at hwm
        rcases hwm with hwm | hwm
        · split at hwm <;> simp at hwm
          subst hwm
          simp
        · subst hwm
          simp

/-- C17, as amended. In the pull flow on a non-empty clipboard text, both
channels hold the text read when the pull returns, and every write of the pull
writes that text. The clipboard channel is always written, also when it holds
the text already; the selection channel is written only when its text
differs: when it already holds the text read, the pull makes no write to it. -/
theorem sync_pull_writes (b : ClipboardBrowser) (mode : Mode) (hne : b.clip.text mode ≠ "") :
    (sync false mode b).clip.text Mode.Clipboard = b.clip.text mode
      ∧ (sync false mode b).clip.text Mode.Selection = b.clip.text mode
      ∧ ∃ ws : List (Mode × QMimeData),
          (sync false mode b).clip.writes = b.clip.writes ++ ws
            ∧ (Mode.Clipboard, QMimeData.text (b.clip.text mode)) ∈ ws
            ∧ (∀ w ∈ ws, w.2 = QMimeData.text (b.clip.text mode))
            ∧ (b.clip.text Mode.Selection = b.clip.text mode →
                ∀ w ∈ ws, w.1 ≠ Mode.Selection) := by
  have hb1 : (if b.clip.text mode ≠ itemText (stopMonitoring b) 0
        then (add (b.clip.text mode) true (stopMonitoring b)).2 else stopMonitoring b).clip = b.clip
      ∨ (if b.clip.text mode ≠ itemText (stopMonitoring b) 0
        then (add (b.clip.text mode) true (stopMonitoring b)).2 else stopMonitoring b).clip
        = setTextIfDifferent (setTextIfDifferent b.clip (b.clip.text mode) Mode.Clipboard)
            (b.clip.text mode) Mode.Selection := by
    split
    · exact add_clip (b.clip.text mode) true (stopMonitoring b)
    · exact Or.inl rfl
  have hsync : (sync false mode b).clip
      = setTextIfDifferent
          ((if b.clip.text mode ≠ itemText (stopMonitoring b) 0
            then (add (b.clip.text mode) true (stopMonitoring b)).2
            else stopMonitoring b).clip.setText (b.clip.text mode) Mode.Clipboard)
          (b.clip.text mode) Mode.Selection := by
    have hne2 : (stopMonitoring b).clip.text mode ≠ "" := hne
    simp only [sync, Bool.false_eq_true, if_false]
    rw [if_pos hne2]
    rfl
  rw [hsync]
  exact pull_write_back b.clip _ (b.clip.text mode) hb1

theorem sync_pull_writes_witness :
    (sync false Mode.Selection
        { mkBrowser 400
            { clipboard := QMimeData.text "old", selection := QMimeData.text "s", writes := [] }
          with m := [QVariant.str "old"], m_lastSelection := "old" }).clip.text Mode.Clipboard = "s"
      ∧ (sync false Mode.Selection
        { mkBrowser 400
            { clipboard := QMimeData.text "old", selection := QMimeData.text "s", writes := [] }
          with m := [QVariant.str "old"], m_lastSelection := "old" }).clip.text Mode.Selection = "s"
      ∧ (sync false Mode.Selection
        { mkBrowser 400
            { clipboard := QMimeData.text "old", selection := QMimeData.text "s", writes := [] }
          with m := [QVariant.str "old"], m_lastSelection := "old" }).clip.writes
        = [(Mode.Clipboard, QMimeData.text "s"), (Mode.Clipboard, QMimeData.text "s")] := by
  have h := sync_pull_writes
    { mkBrowser 400
        { clipboard := QMimeData.text "old", selection := QMimeData.text "s", writes := [] }
      with m := [QVariant.str "old"], m_lastSelection := "old" }
    Mode.Selection (by decide)
  exact ⟨h.1, h.2.1, by decide⟩

/-- C17, counterexample. Both channels hold the text "x", which is also the
head of the store. The pull reads "x" from the clipboard channel and writes it
to that channel all the same: the log of writes holds one write of "x" to the
clipboard channel, and none to the selection channel. -/
theorem sync_pull_rewrites_clipboard_channel :
    QClipboard.text
        { clipboard := QMimeData.text "x", selection := QMimeData.text "x", writes := [] }
        Mode.Clipboard = "x"
      ∧ (sync false Mode.Clipboard
          { mkBrowser 400
              { clipboard := QMimeData.text "x", selection := QMimeData.text "x", writes := [] }
            with m := [QVariant.str "x"], m_lastSelection := "x" }).clip.writes
        = [(Mode.Clipboard, QMimeData.text "x")] := by
  decide

end CopyQ
